import Mathlib

/-!
Execution core of `go-jit-exp` (`engine.go`)

A shallow embedding of the engine, its growable buffers and the status
dispatch of `exec`, followed by theorems about them.

Conventions of the embedding.

* `uint64`, `uint32` and `uintptr` values are natural numbers; every
  arithmetic operation of the source is written with its wrap-around
  (`% 2 ^ 64`) where the Go operation wraps.
* A Go slice is the `List` of its elements. An allocation panics (`makeslice`
  / `growslice`: len out of range) when its size is beyond what the Go
  run-time accepts: more than `maxAlloc` bytes for the byte buffer of a
  memory instance, a length outside `int` for the value stack (whose byte
  limit is reached only beyond 2^44 slots).  Running out of physical memory
  is not part of the model, and neither is `cap`: every slice the engine
  allocates has `cap = len`, and "capacity" below is the length, as in the
  spec.
* A run-time panic is an explicit result: `Except String` for the small
  operations, `outcome` (which records the cause and the state at the point
  of the panic) for the dispatch step.
* `*memoryInst` pointers are indices into a heap of memory instances
  (`state.mems`); an index outside the heap is the nil pointer.  A
  `*compiledFunction` is immutable, so it is embedded by value; the function
  table keeps `Option` entries because a table slot may hold nil.
* The native trampoline `jitcall` has no Go body: it is a parameter.
-/

namespace Exp

/-! ## Machine integers -/

/-- Largest value of the Go type `int` on the 64-bit target. -/
def maxInt : Nat := 2 ^ 63 - 1

/-- The constant `maxAlloc` of the Go run-time on the 64-bit targets with 48
address bits (linux/amd64): the largest size in bytes of an allocation;
`makeslice` and `growslice` panic beyond it. -/
def maxAlloc : Nat := 2 ^ 48

/-! ## Status codes and built-in indices -/

/-- Status `jitStatusReturned` (iota = 0). -/
def jitStatusReturned : Nat := 0

/-- Status `jitStatusCallFunction` (iota = 1). -/
def jitStatusCallFunction : Nat := 1

/-- Status `jitStatusCallBuiltInFunction` (iota = 2). -/
def jitStatusCallBuiltInFunction : Nat := 2

/-- Status `jitStatusCallHostFunction` (iota = 3). -/
def jitStatusCallHostFunction : Nat := 3

/-- Built-in index `builtinFunctionIndexGrowMemory` (iota = 0). -/
def builtinFunctionIndexGrowMemory : Nat := 0

/-- Built-in index `builtinFunctionIndexGrowStack` (iota = 1). -/
def builtinFunctionIndexGrowStack : Nat := 1

/-- Constant `initialStackSize`. -/
def initialStackSize : Nat := 100

/-! ## Data model -/

/-- Type `memoryInst`: the byte buffer of one linear memory. -/
structure memoryInst where
  buf : List Nat
  deriving DecidableEq

/-- Type `compiledFunction`.  `codeAddr` is the address of the backing array
of `codeSegment`; `memoryInst` is the pointer to the memory instance. -/
structure compiledFunction where
  codeSegment : List Nat
  codeAddr : Nat
  memoryInst : Nat
  deriving DecidableEq

/-- Type `*callFrame`: `null` is the nil pointer, `frame` a frame with its
three fields.  Frames are created by `exec` only and never aliased, so the
linked list is embedded by value. -/
inductive callFrame where
  | null : callFrame
  | frame (continuationAddress : Nat) (f : compiledFunction) (prev : callFrame) : callFrame
  deriving DecidableEq

/-- A host callback `func()`: it reads and writes the value stack of the
engine (`stack`, `sp`) and either returns the new pair or panics. -/
abbrev hostFunction : Type := List Nat → Nat → Except String (List Nat × Nat)

/-- Type `engine`. -/
structure engine where
  stack : List Nat
  sp : Nat
  jitCallStatusCode : Nat
  functionCallIndex : Nat
  continuationAddressOffset : Nat
  callFrameStack : callFrame
  compiledFunctions : List (Option compiledFunction)
  hostFunctions : List hostFunction

/-- The engine together with the heap of memory instances that the
`memoryInst` pointers of the compiled functions refer to. -/
structure state where
  e : engine
  mems : List memoryInst

/-- Why a step aborted: the explicit `panic("invalid status code!")` of the
switch, a Go run-time error in the engine code, or a panic raised inside a
host callback. -/
inductive panicCause where
  | invalidStatusCode : panicCause
  | runtime (msg : String) : panicCause
  | inHost (msg : String) : panicCause
  deriving DecidableEq

/-- Result of a step that may panic: `done` with the state reached, or
`panic` with the cause and the state at the point of the panic. -/
inductive outcome (σ : Type) where
  | done (s : σ) : outcome σ
  | panic (c : panicCause) (s : σ) : outcome σ

/-- Whether the outcome is a panic. -/
def outcome.isPanic {σ : Type} : outcome σ → Bool
  | .done _ => false
  | .panic _ _ => true

/-- The state carried by an outcome (reached, or at the point of the panic). -/
def outcome.st {σ : Type} : outcome σ → σ
  | .done s => s
  | .panic _ s => s

/-- The cause of the panic, if any. -/
def outcome.cause {σ : Type} : outcome σ → Option panicCause
  | .done _ => none
  | .panic c _ => some c

/-- Number of frames of a frame chain. -/
def callFrame.depth : callFrame → Nat
  | .null => 0
  | .frame _ _ prev => prev.depth + 1

/-! ## compiledFunction -/

/-- Method `initialAddress`: the address of `codeSegment[0]`; indexing an
empty code segment panics. -/
def initialAddress (c : compiledFunction) : Except String Nat :=
  if c.codeSegment.length = 0 then .error "index out of range [0] with length 0"
  else .ok c.codeAddr

/-! ## memoryInst -/

/-- Function `newMemoryInst`: a buffer of 1024 zero bytes. -/
def newMemoryInst : memoryInst := { buf := List.replicate 1024 0 }

/-- Method `memoryGrow`: `m.buf = append(m.buf, make([]byte, 1024*newPages)...)`.
The product is a `uint64` product; `make` panics when the byte count exceeds
`maxAlloc` (which includes every count that does not fit `int`), `append` when
the new length does. -/
def memoryGrow (m : memoryInst) (newPages : Nat) : Except String memoryInst :=
  let n := (1024 * newPages) % 2 ^ 64
  if n > maxAlloc then .error "makeslice: len out of range"
  else if m.buf.length + n > maxAlloc then .error "growslice: len out of range"
  else .ok { buf := m.buf ++ List.replicate n 0 }

/-- A sequence of calls `memoryGrow(p1), ..., memoryGrow(pn)`, stopping at the
first one that panics. -/
def memoryGrowAll : memoryInst → List Nat → Except String memoryInst
  | m, [] => .ok m
  | m, p :: ps =>
    match memoryGrow m p with
    | .error msg => .error msg
    | .ok m1 => memoryGrowAll m1 ps

/-! ## engine -/

/-- Builtin `copy(dst[:k], src)`: overwrites the first `min k (len src)` slots
of `dst`. -/
def copyInto (dst : List Nat) (k : Nat) (src : List Nat) : List Nat :=
  src.take (min k src.length) ++ dst.drop (min k src.length)

/-- Method `stackGrow`.  `len(e.stack)*2` is an `int` product; `make` panics
when it is out of the range of `int`.  (The byte limit `maxAlloc` of the
allocator is reached earlier, but only by stacks of more than 2^44 slots.) -/
def stackGrow (e : engine) : Except String engine :=
  if e.stack.length * 2 > maxInt then .error "makeslice: len out of range"
  else
    let newStack := List.replicate (e.stack.length * 2) 0
    let newStack := copyInto newStack e.stack.length e.stack
    .ok { e with stack := newStack }

/-- The closures registered by `newEngine`:
`e.stack[e.sp-1] = e.stack[e.sp-1] * c`, where `e.sp-1` is a `uint64`
difference and the product a `uint64` product. -/
def hostMul (c : Nat) : hostFunction := fun stack sp =>
  let i := (sp + 2 ^ 64 - 1) % 2 ^ 64
  match stack[i]? with
  | none => .error "index out of range"
  | some v => .ok (stack.set i ((v * c) % 2 ^ 64), sp)

/-- Function `newEngine`. -/
def newEngine : engine :=
  { stack := List.replicate initialStackSize 0
    sp := 0
    jitCallStatusCode := 0
    functionCallIndex := 0
    continuationAddressOffset := 0
    callFrameStack := .null
    compiledFunctions := []
    hostFunctions := [hostMul 100, hostMul 200] }

/-- The zero value `&engine{}` (the package variable `_e`). -/
def zeroEngine : engine :=
  { stack := []
    sp := 0
    jitCallStatusCode := 0
    functionCallIndex := 0
    continuationAddressOffset := 0
    callFrameStack := .null
    compiledFunctions := []
    hostFunctions := [] }

/-! ## The dispatch step of `exec` -/

/-- The statement
`currentFrame.continuationAddress = currentFrame.f.initialAddress() + e.continuationAddressOffset`
for the live frame `frame _ f prev` (a `uintptr` sum). -/
def resume (s : state) (f : compiledFunction) (prev : callFrame) : outcome state :=
  match initialAddress f with
  | .error msg => .panic (.runtime msg) s
  | .ok a =>
    .done { s with e := { s.e with
      callFrameStack := .frame ((a + s.e.continuationAddressOffset) % 2 ^ 64) f prev } }

/-- Case `builtinFunctionIndexGrowMemory`:
`v := e.stack[e.sp-1]; e.sp--; currentFrame.f.memoryInst.memoryGrow(v)`. -/
def callGrowMemory (s : state) (f : compiledFunction) : outcome state :=
  let i := (s.e.sp + 2 ^ 64 - 1) % 2 ^ 64
  match s.e.stack[i]? with
  | none => .panic (.runtime "index out of range") s
  | some v =>
    let s1 : state := { s with e := { s.e with sp := i } }
    match s1.mems[f.memoryInst]? with
    | none => .panic (.runtime "nil pointer dereference") s1
    | some m =>
      match memoryGrow m v with
      | .error msg => .panic (.runtime msg) s1
      | .ok m1 => .done { s1 with mems := s1.mems.set f.memoryInst m1 }

/-- Case `jitStatusCallFunction` of the switch. -/
def callFunction (s : state) (f : compiledFunction) (prev : callFrame) : outcome state :=
  match s.e.compiledFunctions[s.e.functionCallIndex]? with
  | none => .panic (.runtime "index out of range") s
  | some nextFunc =>
    match resume s f prev with
    | .panic c st => .panic c st
    | .done s1 =>
      match nextFunc with
      | none => .panic (.runtime "nil pointer dereference") s1
      | some nf =>
        match initialAddress nf with
        | .error msg => .panic (.runtime msg) s1
        | .ok a =>
          .done { s1 with e := { s1.e with callFrameStack := .frame a nf s1.e.callFrameStack } }

/-- Case `jitStatusCallBuiltInFunction` of the switch. -/
def callBuiltIn (s : state) (f : compiledFunction) (prev : callFrame) : outcome state :=
  if s.e.functionCallIndex = builtinFunctionIndexGrowMemory then
    match callGrowMemory s f with
    | .panic c st => .panic c st
    | .done s1 => resume s1 f prev
  else if s.e.functionCallIndex = builtinFunctionIndexGrowStack then
    match stackGrow s.e with
    | .error msg => .panic (.runtime msg) s
    | .ok e1 => resume { s with e := e1 } f prev
  else resume s f prev

/-- Case `jitStatusCallHostFunction` of the switch. -/
def callHost (s : state) (f : compiledFunction) (prev : callFrame) : outcome state :=
  match s.e.hostFunctions[s.e.functionCallIndex]? with
  | none => .panic (.runtime "index out of range") s
  | some h =>
    match h s.e.stack s.e.sp with
    | .error msg => .panic (.inHost msg) s
    | .ok (stack1, sp1) => resume { s with e := { s.e with stack := stack1, sp := sp1 } } f prev

/-- The `switch e.jitCallStatusCode` of `exec`, run when the trampoline has
returned; the live frame `e.callFrameStack` is `currentFrame`. -/
def dispatch (s : state) : outcome state :=
  match s.e.callFrameStack with
  | .null => .panic (.runtime "nil pointer dereference") s
  | .frame _ f prev =>
    if s.e.jitCallStatusCode = jitStatusReturned then
      .done { s with e := { s.e with callFrameStack := prev } }
    else if s.e.jitCallStatusCode = jitStatusCallFunction then callFunction s f prev
    else if s.e.jitCallStatusCode = jitStatusCallBuiltInFunction then callBuiltIn s f prev
    else if s.e.jitCallStatusCode = jitStatusCallHostFunction then callHost s f prev
    else .panic .invalidStatusCode s

/-! ## The loop of `exec` -/

/-- What one trampoline invocation leaves behind: the slots and the stack
pointer of the value stack, the three registers of the status protocol, and
the bytes of the memory buffer it was given. -/
structure jitWrites where
  stack : List Nat
  sp : Nat
  jitCallStatusCode : Nat
  functionCallIndex : Nat
  continuationAddressOffset : Nat
  buf : List Nat

/-- The external primitive `jitcall(codeSegment, engine, memory)`: given the
address to jump to, the engine and the bytes of the active memory buffer, it
returns what the native code wrote. -/
abbrev trampoline : Type := Nat → engine → List Nat → jitWrites

/-- Native code writes into a buffer in place and never edits its length:
the written contents `new` replace those of `old`, cut or completed to the
length of `old`. -/
def overwrite (old new : List Nat) : List Nat :=
  (new ++ old.drop new.length).take old.length

/-- The state after a trampoline invocation on the frame of function `f`,
whose memory buffer was `buf`. -/
def applyJit (s : state) (f : compiledFunction) (buf : List Nat) (w : jitWrites) : state :=
  { e := { s.e with
      stack := overwrite s.e.stack w.stack
      sp := w.sp
      jitCallStatusCode := w.jitCallStatusCode
      functionCallIndex := w.functionCallIndex
      continuationAddressOffset := w.continuationAddressOffset }
    mems := s.mems.set f.memoryInst { buf := overwrite buf w.buf } }

/-- A run of the loop: `result` is `none` when the iteration bound was reached
before the loop ended; `calls` lists the addresses given to the trampoline, in
order. -/
structure run where
  result : Option (outcome state)
  calls : List Nat

/-- The loop `for e.callFrameStack != nil` of `exec`, for at most the given
number of iterations. -/
def execLoop (jit : trampoline) : Nat → state → run
  | 0, _ => { result := none, calls := [] }
  | fuel + 1, s =>
    match s.e.callFrameStack with
    | .null => { result := some (.done s), calls := [] }
    | .frame cont f _ =>
      match s.mems[f.memoryInst]? with
      | none => { result := some (.panic (.runtime "nil pointer dereference") s), calls := [] }
      | some m =>
        if m.buf.length = 0 then
          { result := some (.panic (.runtime "index out of range [0] with length 0") s),
            calls := [] }
        else
          match dispatch (applyJit s f m.buf (jit cont s.e m.buf)) with
          | .panic c st => { result := some (.panic c st), calls := [cont] }
          | .done s2 =>
            let r := execLoop jit fuel s2
            { result := r.result, calls := cont :: r.calls }

/-- Method `exec`: the root frame is made live, then the loop runs. -/
def exec (jit : trampoline) (fuel : Nat) (s : state) (f : compiledFunction) : run :=
  match initialAddress f with
  | .error msg => { result := some (.panic (.runtime msg) s), calls := [] }
  | .ok a => execLoop jit fuel { s with e := { s.e with callFrameStack := .frame a f .null } }

/-! ## Concrete states used as examples -/

/-- An engine of `newEngine` whose stack was replaced by three slots, two of
them in use. -/
def smallEngine : engine := { newEngine with stack := [5, 6, 7], sp := 2 }

/-- A compiled function with a one-byte code segment at address 4096, using
memory instance 0. -/
def fnA : compiledFunction := { codeSegment := [195], codeAddr := 4096, memoryInst := 0 }

/-- A compiled function with a one-byte code segment at address 8192, using
memory instance 1. -/
def fnB : compiledFunction := { codeSegment := [195], codeAddr := 8192, memoryInst := 1 }

/-- A compiled function whose code segment is empty. -/
def fnNoCode : compiledFunction := { codeSegment := [], codeAddr := 0, memoryInst := 1 }

/-- A state in which the trampoline has just returned from the root frame of
`fnA` with the given status, call-target index and continuation offset; the
value stack is `[5, 6, 7]` with `sp = 2`, and there are two memory instances. -/
def demoState (status idx off : Nat) (table : List (Option compiledFunction)) : state :=
  { e := { smallEngine with
      jitCallStatusCode := status
      functionCallIndex := idx
      continuationAddressOffset := off
      callFrameStack := .frame 4096 fnA .null
      compiledFunctions := table }
    mems := [{ buf := [0, 0] }, { buf := [0] }] }

/-- A trampoline for the two functions `fnA` and `fnB`: the code at the entry
of `fnA` (address 4096) signals `CallFunction` towards index 1 with
continuation offset `k`; the code at every other address signals `Returned`.
It leaves the value stack and the memory as they are. -/
def demoJit (k : Nat) : trampoline := fun addr e buf =>
  if addr = 4096 then
    { stack := e.stack, sp := e.sp, jitCallStatusCode := jitStatusCallFunction,
      functionCallIndex := 1, continuationAddressOffset := k, buf := buf }
  else
    { stack := e.stack, sp := e.sp, jitCallStatusCode := jitStatusReturned,
      functionCallIndex := 0, continuationAddressOffset := 0, buf := buf }

/-- A trampoline whose native code always signals the given status. -/
def constJit (status : Nat) : trampoline := fun _ e buf =>
  { stack := e.stack, sp := e.sp, jitCallStatusCode := status,
    functionCallIndex := 0, continuationAddressOffset := 0, buf := buf }

/-- The first `k` iterations of the loop of `exec`, when each of them invokes
the trampoline and its dispatch step completes: the statuses the trampoline
returned, in order, and the state reached. `none` when the loop has ended
before, or a step panics. -/
def runSteps (jit : trampoline) : Nat → state → Option (List Nat × state)
  | 0, s => some ([], s)
  | k + 1, s =>
    match s.e.callFrameStack with
    | .null => none
    | .frame cont f _ =>
      match s.mems[f.memoryInst]? with
      | none => none
      | some m =>
        if m.buf.length = 0 then none
        else
          match dispatch (applyJit s f m.buf (jit cont s.e m.buf)) with
          | .panic _ _ => none
          | .done s2 =>
            match runSteps jit k s2 with
            | none => none
            | some (sts, sk) => some ((jit cont s.e m.buf).jitCallStatusCode :: sts, sk)

/-- The state `demoState` with an empty value stack in use (`sp = 0`). -/
def emptySpState (status idx : Nat) : state :=
  { e := { (demoState status idx 16 []).e with sp := 0 }
    mems := (demoState status idx 16 []).mems }

/-- A state in which `fnA` asks for `growMemory` with the page count
`2^54 = 18014398509481984` on top of the value stack; memory instance 0 is
the one-byte buffer `[7]`. -/
def wrapGrowState : state :=
  { e := { smallEngine with
      stack := [18014398509481984]
      sp := 1
      jitCallStatusCode := jitStatusCallBuiltInFunction
      functionCallIndex := builtinFunctionIndexGrowMemory
      continuationAddressOffset := 16
      callFrameStack := .frame 4096 fnA .null }
    mems := [{ buf := [7] }, { buf := [0] }] }

/-- A trampoline for `fnA` and `fnB` in which `fnA` first asks for the
built-in `growStack` (at its entry, 4096, with continuation offset 8), then
calls `fnB` (at 4104, with continuation offset 16); every other address
signals `Returned`. -/
def busyJit : trampoline := fun addr e buf =>
  if addr = 4096 then
    { stack := e.stack, sp := e.sp, jitCallStatusCode := jitStatusCallBuiltInFunction,
      functionCallIndex := builtinFunctionIndexGrowStack, continuationAddressOffset := 8,
      buf := buf }
  else if addr = 4104 then
    { stack := e.stack, sp := e.sp, jitCallStatusCode := jitStatusCallFunction,
      functionCallIndex := 1, continuationAddressOffset := 16, buf := buf }
  else
    { stack := e.stack, sp := e.sp, jitCallStatusCode := jitStatusReturned,
      functionCallIndex := 0, continuationAddressOffset := 0, buf := buf }

/-- A compiled function distinct from `fnA` that shares its memory instance
(instance 0). -/
def fnC : compiledFunction := { codeSegment := [195], codeAddr := 12288, memoryInst := 0 }

/-- A trampoline whose answer depends on the engine state and not on the
address: native code running in the root frame signals `CallFunction` towards
index 0 with continuation offset 16, native code running in a deeper frame
signals `Returned`. -/
def selfJit : trampoline := fun _ e buf =>
  if e.callFrameStack.depth ≤ 1 then
    { stack := e.stack, sp := e.sp, jitCallStatusCode := jitStatusCallFunction,
      functionCallIndex := 0, continuationAddressOffset := 16, buf := buf }
  else
    { stack := e.stack, sp := e.sp, jitCallStatusCode := jitStatusReturned,
      functionCallIndex := 0, continuationAddressOffset := 0, buf := buf }

/-! ## Lemmas on the buffers -/

theorem maxInt_eq : maxInt = 9223372036854775807 := by norm_num [maxInt]

theorem maxInt_lt : maxInt < 2 ^ 64 := by rw [maxInt_eq]; norm_num

theorem maxAlloc_eq : maxAlloc = 281474976710656 := by norm_num [maxAlloc]

theorem maxAlloc_lt : maxAlloc < 2 ^ 64 := by rw [maxAlloc_eq]; norm_num

theorem newMemoryInst_length : newMemoryInst.buf.length = 1024 :=
  List.length_replicate 1024 0

theorem ne_append_replicate (xs : List Nat) (n : Nat) (h : 0 < n) :
    xs ≠ xs ++ List.replicate n 0 := by
  intro h1
  have hl := congrArg List.length h1
  simp only [List.length_append, List.length_replicate] at hl
  omega

theorem wrapped_pages : (1024 * 2 ^ 54) % 2 ^ 64 = 0 := by norm_num

theorem memoryGrow_ok_iff (m : memoryInst) (p : Nat) (m1 : memoryInst) :
    memoryGrow m p = .ok m1 ↔
      (m.buf.length + (1024 * p) % 2 ^ 64 ≤ maxAlloc ∧
        m1 = { buf := m.buf ++ List.replicate ((1024 * p) % 2 ^ 64) 0 }) := by
  unfold memoryGrow
  by_cases h1 : (1024 * p) % 2 ^ 64 > maxAlloc
  · simp only [h1, if_true]
    constructor
    · intro h; cases h
    · rintro ⟨h, -⟩; omega
  · by_cases h2 : m.buf.length + (1024 * p) % 2 ^ 64 > maxAlloc
    · simp only [h1, h2, if_true, if_false]
      constructor
      · intro h; cases h
      · rintro ⟨h, -⟩; omega
    · simp only [h1, h2, if_false]
      constructor
      · intro h
        injection h with h
        exact ⟨by omega, h.symm⟩
      · rintro ⟨-, h⟩; rw [h]

theorem memoryGrow_in_range (m : memoryInst) (p : Nat)
    (h : m.buf.length + 1024 * p ≤ maxAlloc) :
    memoryGrow m p = .ok { buf := m.buf ++ List.replicate (p * 1024) 0 } := by
  have hm : maxAlloc < 2 ^ 64 := maxAlloc_lt
  have hmod : (1024 * p) % 2 ^ 64 = p * 1024 := by
    rw [Nat.mod_eq_of_lt (by omega)]; ring
  rw [memoryGrow_ok_iff]
  rw [hmod]
  exact ⟨by omega, rfl⟩

theorem memoryGrow_length_le (m : memoryInst) (p : Nat) (m1 : memoryInst)
    (h : memoryGrow m p = .ok m1) : m.buf.length ≤ m1.buf.length := by
  rw [memoryGrow_ok_iff] at h
  rw [h.2]
  simp

theorem memoryGrow_getElem? (m : memoryInst) (p : Nat) (m1 : memoryInst)
    (h : memoryGrow m p = .ok m1) (i : Nat) (hi : i < m.buf.length) :
    m1.buf[i]? = m.buf[i]? := by
  rw [memoryGrow_ok_iff] at h
  rw [h.2]
  exact List.getElem?_append_left hi

theorem memoryGrowAll_preserves (ps : List Nat) :
    ∀ (m m1 : memoryInst), memoryGrowAll m ps = .ok m1 →
      m.buf.length ≤ m1.buf.length ∧
        ∀ i, i < m.buf.length → m1.buf[i]? = m.buf[i]? := by
  induction ps with
  | nil =>
    intro m m1 h
    simp only [memoryGrowAll] at h
    injection h with h
    subst h
    exact ⟨le_refl _, fun _ _ => rfl⟩
  | cons p ps ih =>
    intro m m1 h
    simp only [memoryGrowAll] at h
    cases hg : memoryGrow m p with
    | error msg => rw [hg] at h; cases h
    | ok m2 =>
      rw [hg] at h
      have h2 := ih m2 m1 h
      have hle := memoryGrow_length_le m p m2 hg
      refine ⟨le_trans hle h2.1, fun i hi => ?_⟩
      rw [h2.2 i (lt_of_lt_of_le hi hle)]
      exact memoryGrow_getElem? m p m2 hg i hi

theorem copyInto_replicate (xs : List Nat) :
    copyInto (List.replicate (xs.length * 2) 0) xs.length xs =
      xs ++ List.replicate xs.length 0 := by
  unfold copyInto
  simp only [min_self, List.take_length, List.drop_replicate]
  congr 2
  omega

theorem stackGrow_ok_iff (e e1 : engine) :
    stackGrow e = .ok e1 ↔
      (e.stack.length * 2 ≤ maxInt ∧
        e1 = { e with stack := e.stack ++ List.replicate e.stack.length 0 }) := by
  unfold stackGrow
  by_cases h : e.stack.length * 2 > maxInt
  · simp only [h, if_true]
    constructor
    · intro h; cases h
    · rintro ⟨h, -⟩; omega
  · simp only [h, if_false, copyInto_replicate]
    constructor
    · intro h1
      injection h1 with h1
      exact ⟨by omega, h1.symm⟩
    · rintro ⟨-, h1⟩; rw [h1]

theorem memoryGrowAll_in_range (ps : List Nat) :
    ∀ (m : memoryInst), m.buf.length + (ps.map (fun p => p * 1024)).sum ≤ maxAlloc →
      ∃ m1, memoryGrowAll m ps = .ok m1 ∧
        m1.buf.length = m.buf.length + (ps.map (fun p => p * 1024)).sum := by
  induction ps with
  | nil => intro m _; exact ⟨m, rfl, by simp⟩
  | cons p ps ih =>
    intro m h
    simp only [List.map_cons, List.sum_cons] at h
    have hg := memoryGrow_in_range m p (by omega)
    obtain ⟨m1, h1, h2⟩ := ih { buf := m.buf ++ List.replicate (p * 1024) 0 }
      (by simp only [List.length_append, List.length_replicate]; omega)
    refine ⟨m1, ?_, ?_⟩
    · simp only [memoryGrowAll, hg]; exact h1
    · rw [h2]
      simp only [List.length_append, List.length_replicate, List.map_cons, List.sum_cons]
      omega

theorem no_wrap_pages (p : Nat) (h : p < 2 ^ 54) : (1024 * p) % 2 ^ 64 = p * 1024 := by
  omega

theorem memoryGrow_length (m m1 : memoryInst) (p : Nat) (h : memoryGrow m p = .ok m1) :
    m1.buf.length = m.buf.length + (1024 * p) % 2 ^ 64 := by
  rw [memoryGrow_ok_iff] at h
  rw [h.2]
  simp only [List.length_append, List.length_replicate]

theorem memoryGrowAll_length_mod (ps : List Nat) :
    ∀ (m m1 : memoryInst), memoryGrowAll m ps = .ok m1 →
      m1.buf.length = m.buf.length + (ps.map (fun p => (1024 * p) % 2 ^ 64)).sum := by
  induction ps with
  | nil =>
    intro m m1 h
    simp only [memoryGrowAll] at h
    injection h with h
    subst h
    simp
  | cons p ps ih =>
    intro m m1 h
    simp only [memoryGrowAll] at h
    cases hg : memoryGrow m p with
    | error msg => rw [hg] at h; cases h
    | ok m2 =>
      rw [hg] at h
      rw [ih m2 m1 h, memoryGrow_length m m2 p hg]
      simp only [List.map_cons, List.sum_cons]
      omega

theorem sum_pages_no_wrap (ps : List Nat) (h : ∀ p, p ∈ ps → p < 2 ^ 54) :
    (ps.map (fun p => (1024 * p) % 2 ^ 64)).sum = (ps.map (fun p => p * 1024)).sum := by
  induction ps with
  | nil => rfl
  | cons p ps ih =>
    simp only [List.map_cons, List.sum_cons]
    rw [ih (fun q hq => h q (List.mem_cons_of_mem p hq)),
      no_wrap_pages p (h p (List.mem_cons_self p ps))]

/-! ## Lemmas on the dispatch step and the loop -/

theorem initialAddress_ok (c : compiledFunction) (h : c.codeSegment ≠ []) :
    initialAddress c = .ok c.codeAddr := by
  unfold initialAddress
  have h1 : c.codeSegment.length ≠ 0 := fun h2 => h (List.length_eq_zero.mp h2)
  simp only [h1, if_false]

theorem resume_ok (s : state) (f : compiledFunction) (prev : callFrame)
    (h : f.codeSegment ≠ []) :
    resume s f prev = .done { s with e := { s.e with
      callFrameStack :=
        .frame ((f.codeAddr + s.e.continuationAddressOffset) % 2 ^ 64) f prev } } := by
  unfold resume
  rw [initialAddress_ok f h]

theorem dispatch_live (s : state) (cont : Nat) (f : compiledFunction) (prev : callFrame)
    (h : s.e.callFrameStack = .frame cont f prev) :
    dispatch s =
      if s.e.jitCallStatusCode = jitStatusReturned then
        .done { s with e := { s.e with callFrameStack := prev } }
      else if s.e.jitCallStatusCode = jitStatusCallFunction then callFunction s f prev
      else if s.e.jitCallStatusCode = jitStatusCallBuiltInFunction then callBuiltIn s f prev
      else if s.e.jitCallStatusCode = jitStatusCallHostFunction then callHost s f prev
      else .panic .invalidStatusCode s := by
  unfold dispatch
  rw [h]

theorem dispatch_eq_returned (s : state) (cont : Nat) (f : compiledFunction)
    (prev : callFrame) (h : s.e.callFrameStack = .frame cont f prev)
    (hs : s.e.jitCallStatusCode = jitStatusReturned) :
    dispatch s = .done { s with e := { s.e with callFrameStack := prev } } := by
  rw [dispatch_live s cont f prev h, if_pos hs]

theorem dispatch_eq_callFunction (s : state) (cont : Nat) (f : compiledFunction)
    (prev : callFrame) (h : s.e.callFrameStack = .frame cont f prev)
    (hs : s.e.jitCallStatusCode = jitStatusCallFunction) :
    dispatch s = callFunction s f prev := by
  have h0 : ¬ (s.e.jitCallStatusCode = jitStatusReturned) := by rw [hs]; decide
  rw [dispatch_live s cont f prev h, if_neg h0, if_pos hs]

theorem dispatch_eq_callBuiltIn (s : state) (cont : Nat) (f : compiledFunction)
    (prev : callFrame) (h : s.e.callFrameStack = .frame cont f prev)
    (hs : s.e.jitCallStatusCode = jitStatusCallBuiltInFunction) :
    dispatch s = callBuiltIn s f prev := by
  have h0 : ¬ (s.e.jitCallStatusCode = jitStatusReturned) := by rw [hs]; decide
  have h1 : ¬ (s.e.jitCallStatusCode = jitStatusCallFunction) := by rw [hs]; decide
  rw [dispatch_live s cont f prev h, if_neg h0, if_neg h1, if_pos hs]

theorem dispatch_eq_callHost (s : state) (cont : Nat) (f : compiledFunction)
    (prev : callFrame) (h : s.e.callFrameStack = .frame cont f prev)
    (hs : s.e.jitCallStatusCode = jitStatusCallHostFunction) :
    dispatch s = callHost s f prev := by
  have h0 : ¬ (s.e.jitCallStatusCode = jitStatusReturned) := by rw [hs]; decide
  have h1 : ¬ (s.e.jitCallStatusCode = jitStatusCallFunction) := by rw [hs]; decide
  have h2 : ¬ (s.e.jitCallStatusCode = jitStatusCallBuiltInFunction) := by rw [hs]; decide
  rw [dispatch_live s cont f prev h, if_neg h0, if_neg h1, if_neg h2, if_pos hs]

theorem overwrite_length (old new : List Nat) : (overwrite old new).length = old.length := by
  unfold overwrite
  simp only [List.length_take, List.length_append, List.length_drop]
  omega

theorem execLoop_null (jit : trampoline) (fuel : Nat) (s : state)
    (h : s.e.callFrameStack = .null) :
    execLoop jit (fuel + 1) s = { result := some (.done s), calls := [] } := by
  unfold execLoop
  rw [h]

theorem execLoop_panic (jit : trampoline) (fuel : Nat) (s st : state) (cont : Nat)
    (f : compiledFunction) (prev : callFrame) (m : memoryInst) (c : panicCause)
    (hlive : s.e.callFrameStack = .frame cont f prev)
    (hm : s.mems[f.memoryInst]? = some m) (hm0 : m.buf ≠ [])
    (hd : dispatch (applyJit s f m.buf (jit cont s.e m.buf)) = .panic c st) :
    execLoop jit (fuel + 1) s = { result := some (.panic c st), calls := [cont] } := by
  have h1 : m.buf.length ≠ 0 := fun h2 => hm0 (List.length_eq_zero.mp h2)
  unfold execLoop
  rw [hlive]
  simp only [hm, h1, if_false, hd]

theorem execLoop_done (jit : trampoline) (fuel : Nat) (s s2 : state) (cont : Nat)
    (f : compiledFunction) (prev : callFrame) (m : memoryInst)
    (hlive : s.e.callFrameStack = .frame cont f prev)
    (hm : s.mems[f.memoryInst]? = some m) (hm0 : m.buf ≠ [])
    (hd : dispatch (applyJit s f m.buf (jit cont s.e m.buf)) = .done s2) :
    execLoop jit (fuel + 1) s =
      { result := (execLoop jit fuel s2).result, calls := cont :: (execLoop jit fuel s2).calls } := by
  have h1 : m.buf.length ≠ 0 := fun h2 => hm0 (List.length_eq_zero.mp h2)
  conv_lhs => unfold execLoop
  rw [hlive]
  simp only [hm, h1, if_false, hd]

theorem execLoop_calls_head (jit : trampoline) (fuel : Nat) (s : state) (cont : Nat)
    (f : compiledFunction) (prev : callFrame) (m : memoryInst)
    (hlive : s.e.callFrameStack = .frame cont f prev)
    (hm : s.mems[f.memoryInst]? = some m) (hm0 : m.buf ≠ []) :
    ∃ rest, (execLoop jit (fuel + 1) s).calls = cont :: rest := by
  cases hd : dispatch (applyJit s f m.buf (jit cont s.e m.buf)) with
  | panic c st =>
    rw [execLoop_panic jit fuel s st cont f prev m c hlive hm hm0 hd]
    exact ⟨[], rfl⟩
  | done s2 =>
    rw [execLoop_done jit fuel s s2 cont f prev m hlive hm hm0 hd]
    exact ⟨_, rfl⟩

theorem applyJit_mems (s : state) (f : compiledFunction) (m : memoryInst) (w : jitWrites)
    (j : Nat) (mj : memoryInst)
    (hm : s.mems[f.memoryInst]? = some m) (hj : s.mems[j]? = some mj) :
    ∃ mj1, (applyJit s f m.buf w).mems[j]? = some mj1 ∧ mj1.buf.length = mj.buf.length := by
  unfold applyJit
  simp only [List.getElem?_set]
  by_cases h : f.memoryInst = j
  · subst h
    have hlt : f.memoryInst < s.mems.length := by
      by_contra hc
      rw [List.getElem?_eq_none (Nat.le_of_not_lt hc)] at hm
      cases hm
    rw [hm] at hj
    injection hj with hj
    subst hj
    simp only [if_true, hlt]
    exact ⟨_, rfl, overwrite_length _ _⟩
  · simp only [h, if_false]
    exact ⟨mj, hj, rfl⟩

theorem callFunction_ok (s : state) (cont : Nat) (f nf : compiledFunction)
    (prev : callFrame)
    (hlive : s.e.callFrameStack = .frame cont f prev)
    (hs : s.e.jitCallStatusCode = jitStatusCallFunction)
    (hidx : s.e.compiledFunctions[s.e.functionCallIndex]? = some (some nf))
    (hf : f.codeSegment ≠ []) (hnf : nf.codeSegment ≠ []) :
    dispatch s = .done { s with e := { s.e with
      callFrameStack := .frame nf.codeAddr nf
        (.frame ((f.codeAddr + s.e.continuationAddressOffset) % 2 ^ 64) f prev) } } := by
  rw [dispatch_eq_callFunction s cont f prev hlive hs]
  unfold callFunction
  simp only [hidx, resume_ok s f prev hf, initialAddress_ok nf hnf]

theorem wrapped_sum_ne (a k : Nat) (hk : 0 < k) (hk64 : k < 2 ^ 64) :
    (a + k) % 2 ^ 64 ≠ a := by
  omega

theorem decrement_sp (sp : Nat) (h1 : 1 ≤ sp) (h64 : sp < 2 ^ 64) :
    (sp + 2 ^ 64 - 1) % 2 ^ 64 = sp - 1 := by
  omega

theorem hostMul_ok (c : Nat) (stack : List Nat) (sp v : Nat) (h1 : 1 ≤ sp)
    (h64 : sp < 2 ^ 64) (hv : stack[sp - 1]? = some v) :
    hostMul c stack sp = .ok (stack.set (sp - 1) ((v * c) % 2 ^ 64), sp) := by
  unfold hostMul
  simp only [decrement_sp sp h1 h64, hv]

theorem resume_cause (s : state) (f : compiledFunction) (prev : callFrame) :
    (resume s f prev).cause ≠ some .invalidStatusCode := by
  unfold resume
  split <;> simp [outcome.cause]

theorem callGrowMemory_cause (s : state) (f : compiledFunction) :
    (callGrowMemory s f).cause ≠ some .invalidStatusCode := by
  unfold callGrowMemory
  dsimp only
  split
  · simp [outcome.cause]
  · split
    · simp [outcome.cause]
    · split <;> simp [outcome.cause]

theorem callFunction_cause (s : state) (f : compiledFunction) (prev : callFrame) :
    (callFunction s f prev).cause ≠ some .invalidStatusCode := by
  unfold callFunction
  split
  · simp [outcome.cause]
  · split
    · rename_i c st h
      have hc := resume_cause s f prev
      rw [h] at hc
      exact hc
    · repeat' split
      all_goals simp [outcome.cause]

theorem callBuiltIn_cause (s : state) (f : compiledFunction) (prev : callFrame) :
    (callBuiltIn s f prev).cause ≠ some .invalidStatusCode := by
  unfold callBuiltIn
  split
  · split
    · rename_i c st h
      have hc := callGrowMemory_cause s f
      rw [h] at hc
      exact hc
    · exact resume_cause _ f prev
  · split
    · split
      · simp [outcome.cause]
      · exact resume_cause _ f prev
    · exact resume_cause _ f prev

theorem callHost_cause (s : state) (f : compiledFunction) (prev : callFrame) :
    (callHost s f prev).cause ≠ some .invalidStatusCode := by
  unfold callHost
  split
  · simp [outcome.cause]
  · split
    · simp [outcome.cause]
    · exact resume_cause _ f prev

theorem resume_done (s s1 : state) (f : compiledFunction) (prev : callFrame)
    (h : resume s f prev = .done s1) :
    f.codeSegment ≠ [] ∧
    s1 = { s with e := { s.e with
      callFrameStack :=
        .frame ((f.codeAddr + s.e.continuationAddressOffset) % 2 ^ 64) f prev } } := by
  by_cases hf : f.codeSegment = []
  · exfalso
    unfold resume initialAddress at h
    simp only [hf, List.length_nil, if_true] at h
    cases h
  · rw [resume_ok s f prev hf] at h
    injection h with h
    exact ⟨hf, h.symm⟩

theorem resume_panic (s st : state) (f : compiledFunction) (prev : callFrame)
    (c : panicCause) (h : resume s f prev = .panic c st) :
    st = s ∧ c = .runtime "index out of range [0] with length 0" := by
  by_cases hf : f.codeSegment = []
  · unfold resume initialAddress at h
    simp only [hf, List.length_nil, if_true] at h
    injection h with h1 h2
    exact ⟨h2.symm, h1.symm⟩
  · rw [resume_ok s f prev hf] at h
    cases h

theorem state_with_sp (e : engine) (ms : List memoryInst) (x : Nat) :
    ({ e := { e with sp := x }, mems := ms } : state).e.callFrameStack = e.callFrameStack ∧
    ({ e := { e with sp := x }, mems := ms } : state).mems = ms ∧
    ({ e := { e with sp := x }, mems := ms } : state).e.stack = e.stack :=
  ⟨rfl, rfl, rfl⟩

theorem callGrowMemory_done (s s1 : state) (f : compiledFunction)
    (h : callGrowMemory s f = .done s1) :
    ∃ i v m m1, i = (s.e.sp + 2 ^ 64 - 1) % 2 ^ 64 ∧ s.e.stack[i]? = some v ∧
      s.mems[f.memoryInst]? = some m ∧ memoryGrow m v = .ok m1 ∧
      s1 = { e := { s.e with sp := i }, mems := s.mems.set f.memoryInst m1 } := by
  unfold callGrowMemory at h
  dsimp only at h
  cases hv : s.e.stack[(s.e.sp + 2 ^ 64 - 1) % 2 ^ 64]? with
  | none => rw [hv] at h; cases h
  | some v =>
    rw [hv] at h
    dsimp only at h
    cases hm : s.mems[f.memoryInst]? with
    | none => rw [hm] at h; cases h
    | some m =>
      rw [hm] at h
      dsimp only at h
      cases hg : memoryGrow m v with
      | error msg => rw [hg] at h; cases h
      | ok m1 =>
        rw [hg] at h
        injection h with h
        exact ⟨_, v, m, m1, rfl, hv, rfl, hg, h.symm⟩

theorem callGrowMemory_panic (s st : state) (f : compiledFunction) (c : panicCause)
    (h : callGrowMemory s f = .panic c st) :
    st.e.callFrameStack = s.e.callFrameStack ∧ st.mems = s.mems ∧
      st.e.stack = s.e.stack := by
  unfold callGrowMemory at h
  dsimp only at h
  cases hv : s.e.stack[(s.e.sp + 2 ^ 64 - 1) % 2 ^ 64]? with
  | none =>
    rw [hv] at h
    injection h with h1 h2
    subst h2
    exact ⟨rfl, rfl, rfl⟩
  | some v =>
    rw [hv] at h
    dsimp only at h
    cases hm : s.mems[f.memoryInst]? with
    | none =>
      rw [hm] at h
      injection h with h1 h2
      rewrite [← h2]
      exact state_with_sp s.e s.mems _
    | some m =>
      rw [hm] at h
      dsimp only at h
      cases hg : memoryGrow m v with
      | error msg =>
        rw [hg] at h
        injection h with h1 h2
        rewrite [← h2]
        exact state_with_sp s.e s.mems _
      | ok m1 => rw [hg] at h; cases h

theorem callGrowMemory_ok (s : state) (f : compiledFunction) (v : Nat) (m m1 : memoryInst)
    (h1 : 1 ≤ s.e.sp) (h64 : s.e.sp < 2 ^ 64)
    (hv : s.e.stack[s.e.sp - 1]? = some v) (hm : s.mems[f.memoryInst]? = some m)
    (hg : memoryGrow m v = .ok m1) :
    callGrowMemory s f =
      .done { e := { s.e with sp := s.e.sp - 1 }, mems := s.mems.set f.memoryInst m1 } := by
  unfold callGrowMemory
  simp only [decrement_sp s.e.sp h1 h64, hv, hm, hg]

theorem callBuiltIn_growMemory (s : state) (f : compiledFunction) (prev : callFrame)
    (hidx : s.e.functionCallIndex = builtinFunctionIndexGrowMemory) :
    callBuiltIn s f prev =
      match callGrowMemory s f with
      | .panic c st => .panic c st
      | .done s1 => resume s1 f prev := by
  unfold callBuiltIn
  rw [if_pos hidx]

theorem callBuiltIn_growStack (s : state) (f : compiledFunction) (prev : callFrame)
    (hidx : s.e.functionCallIndex = builtinFunctionIndexGrowStack) :
    callBuiltIn s f prev =
      match stackGrow s.e with
      | .error msg => .panic (.runtime msg) s
      | .ok e1 => resume { s with e := e1 } f prev := by
  have h0 : ¬ (s.e.functionCallIndex = builtinFunctionIndexGrowMemory) := by
    rw [hidx]; decide
  unfold callBuiltIn
  rw [if_neg h0, if_pos hidx]

theorem callBuiltIn_other (s : state) (f : compiledFunction) (prev : callFrame)
    (h0 : s.e.functionCallIndex ≠ builtinFunctionIndexGrowMemory)
    (h1 : s.e.functionCallIndex ≠ builtinFunctionIndexGrowStack) :
    callBuiltIn s f prev = resume s f prev := by
  unfold callBuiltIn
  rw [if_neg h0, if_neg h1]

theorem callGrowMemory_error (s : state) (f : compiledFunction) (v : Nat) (m : memoryInst)
    (msg : String) (h1 : 1 ≤ s.e.sp) (h64 : s.e.sp < 2 ^ 64)
    (hv : s.e.stack[s.e.sp - 1]? = some v) (hm : s.mems[f.memoryInst]? = some m)
    (hg : memoryGrow m v = .error msg) :
    callGrowMemory s f =
      .panic (.runtime msg) { e := { s.e with sp := s.e.sp - 1 }, mems := s.mems } := by
  unfold callGrowMemory
  simp only [decrement_sp s.e.sp h1 h64, hv, hm, hg]

theorem dispatch_growMemory_ok (s : state) (cont : Nat) (f : compiledFunction)
    (prev : callFrame) (v : Nat) (m m1 : memoryInst)
    (hlive : s.e.callFrameStack = .frame cont f prev) (hf : f.codeSegment ≠ [])
    (hs : s.e.jitCallStatusCode = jitStatusCallBuiltInFunction)
    (hidx : s.e.functionCallIndex = builtinFunctionIndexGrowMemory)
    (h1 : 1 ≤ s.e.sp) (h64 : s.e.sp < 2 ^ 64)
    (hv : s.e.stack[s.e.sp - 1]? = some v) (hm : s.mems[f.memoryInst]? = some m)
    (hg : memoryGrow m v = .ok m1) :
    dispatch s = .done
      { e := { s.e with
          sp := s.e.sp - 1
          callFrameStack :=
            .frame ((f.codeAddr + s.e.continuationAddressOffset) % 2 ^ 64) f prev }
        mems := s.mems.set f.memoryInst m1 } := by
  rw [dispatch_eq_callBuiltIn s cont f prev hlive hs, callBuiltIn_growMemory s f prev hidx,
    callGrowMemory_ok s f v m m1 h1 h64 hv hm hg]
  exact resume_ok _ f prev hf

theorem dispatch_growMemory_error (s : state) (cont : Nat) (f : compiledFunction)
    (prev : callFrame) (v : Nat) (m : memoryInst) (msg : String)
    (hlive : s.e.callFrameStack = .frame cont f prev)
    (hs : s.e.jitCallStatusCode = jitStatusCallBuiltInFunction)
    (hidx : s.e.functionCallIndex = builtinFunctionIndexGrowMemory)
    (h1 : 1 ≤ s.e.sp) (h64 : s.e.sp < 2 ^ 64)
    (hv : s.e.stack[s.e.sp - 1]? = some v) (hm : s.mems[f.memoryInst]? = some m)
    (hg : memoryGrow m v = .error msg) :
    dispatch s =
      .panic (.runtime msg) { e := { s.e with sp := s.e.sp - 1 }, mems := s.mems } := by
  rw [dispatch_eq_callBuiltIn s cont f prev hlive hs, callBuiltIn_growMemory s f prev hidx,
    callGrowMemory_error s f v m msg h1 h64 hv hm hg]

theorem getElem?_lt_length (ms : List memoryInst) (k : Nat) (m : memoryInst)
    (h : ms[k]? = some m) : k < ms.length := by
  by_contra hc
  rw [List.getElem?_eq_none (Nat.le_of_not_lt hc)] at h
  cases h

theorem wrapped_pages_literal : (1024 * 18014398509481984) % 2 ^ 64 = 0 := by norm_num

theorem small_grow_in_range_pages :
    ({ buf := [0, 0] } : memoryInst).buf.length + 1024 * 6 ≤ maxAlloc := by
  rw [maxAlloc_eq]
  simp only [List.length_cons, List.length_nil]
  norm_num

theorem getElem?_some_lt (xs : List Nat) (i v : Nat) (h : xs[i]? = some v) :
    i < xs.length := by
  by_contra hc
  rw [List.getElem?_eq_none (Nat.le_of_not_lt hc)] at h
  cases h

theorem callBuiltIn_done_effect (s s1 : state) (f : compiledFunction) (prev : callFrame)
    (h : callBuiltIn s f prev = .done s1) :
    f.codeSegment ≠ [] ∧
    s1.e.callFrameStack =
      .frame ((f.codeAddr + s.e.continuationAddressOffset) % 2 ^ 64) f prev ∧
    s1.e.hostFunctions = s.e.hostFunctions ∧
    (s.e.sp ≤ s.e.stack.length → s1.e.sp ≤ s1.e.stack.length) := by
  by_cases h0 : s.e.functionCallIndex = builtinFunctionIndexGrowMemory
  · rw [callBuiltIn_growMemory s f prev h0] at h
    cases hc : callGrowMemory s f with
    | panic c st => rw [hc] at h; cases h
    | done s2 =>
      rw [hc] at h
      dsimp only at h
      obtain ⟨i, v, m, m1, -, hv, -, -, hs2⟩ := callGrowMemory_done s s2 f hc
      obtain ⟨hf, hs1⟩ := resume_done s2 s1 f prev h
      subst hs2
      subst hs1
      refine ⟨hf, rfl, rfl, fun _ => ?_⟩
      show i ≤ s.e.stack.length
      exact Nat.le_of_lt (getElem?_some_lt s.e.stack i v hv)
  · by_cases h1 : s.e.functionCallIndex = builtinFunctionIndexGrowStack
    · rw [callBuiltIn_growStack s f prev h1] at h
      cases hc : stackGrow s.e with
      | error msg => rw [hc] at h; cases h
      | ok e1 =>
        rw [hc] at h
        dsimp only at h
        obtain ⟨hf, hs1⟩ := resume_done _ s1 f prev h
        rw [stackGrow_ok_iff] at hc
        obtain ⟨-, he1⟩ := hc
        subst he1
        subst hs1
        refine ⟨hf, rfl, rfl, fun hsp => ?_⟩
        show s.e.sp ≤ (s.e.stack ++ List.replicate s.e.stack.length 0).length
        rw [List.length_append]
        exact Nat.le_trans hsp (Nat.le_add_right _ _)
    · rw [callBuiltIn_other s f prev h0 h1] at h
      obtain ⟨hf, hs1⟩ := resume_done s s1 f prev h
      subst hs1
      exact ⟨hf, rfl, rfl, fun hsp => hsp⟩

theorem callHost_done (s s1 : state) (f : compiledFunction) (prev : callFrame)
    (h : callHost s f prev = .done s1) :
    ∃ hfn stack1 sp1, s.e.hostFunctions[s.e.functionCallIndex]? = some hfn ∧
      hfn s.e.stack s.e.sp = .ok (stack1, sp1) ∧
      f.codeSegment ≠ [] ∧
      s1 = { s with e := { s.e with
        stack := stack1
        sp := sp1
        callFrameStack :=
          .frame ((f.codeAddr + s.e.continuationAddressOffset) % 2 ^ 64) f prev } } := by
  unfold callHost at h
  cases ht : s.e.hostFunctions[s.e.functionCallIndex]? with
  | none => rw [ht] at h; cases h
  | some hfn =>
    rw [ht] at h
    dsimp only at h
    cases hr : hfn s.e.stack s.e.sp with
    | error msg => rw [hr] at h; cases h
    | ok r =>
      obtain ⟨stack1, sp1⟩ := r
      rw [hr] at h
      dsimp only at h
      obtain ⟨hf, hs1⟩ := resume_done _ s1 f prev h
      exact ⟨hfn, stack1, sp1, rfl, hr, hf, hs1⟩

theorem hostMul_done (c : Nat) (stack stack1 : List Nat) (sp sp1 : Nat)
    (h : hostMul c stack sp = .ok (stack1, sp1)) :
    sp1 = sp ∧ stack1.length = stack.length := by
  unfold hostMul at h
  dsimp only at h
  cases hv : stack[(sp + 2 ^ 64 - 1) % 2 ^ 64]? with
  | none => rw [hv] at h; cases h
  | some v =>
    rw [hv] at h
    dsimp only at h
    injection h with h
    injection h with h1 h2
    refine ⟨h2.symm, ?_⟩
    rw [← h1]
    exact List.length_set _ _ _

theorem newEngine_host_lookup (idx : Nat) (hfn : hostFunction)
    (h : newEngine.hostFunctions[idx]? = some hfn) :
    (idx = 0 ∧ hfn = hostMul 100) ∨ (idx = 1 ∧ hfn = hostMul 200) := by
  have hl : newEngine.hostFunctions = [hostMul 100, hostMul 200] := rfl
  rw [hl] at h
  match idx, h with
  | 0, h => left; exact ⟨rfl, by injection h with h; exact h.symm⟩
  | 1, h => right; exact ⟨rfl, by injection h with h; exact h.symm⟩
  | n + 2, h => cases h

theorem dispatch_growStack_ok (s : state) (cont : Nat) (f : compiledFunction)
    (prev : callFrame)
    (hlive : s.e.callFrameStack = .frame cont f prev) (hf : f.codeSegment ≠ [])
    (hs : s.e.jitCallStatusCode = jitStatusCallBuiltInFunction)
    (hidx : s.e.functionCallIndex = builtinFunctionIndexGrowStack)
    (hlen : s.e.stack.length * 2 ≤ maxInt) :
    dispatch s = .done { s with e := { s.e with
      stack := s.e.stack ++ List.replicate s.e.stack.length 0
      callFrameStack :=
        .frame ((f.codeAddr + s.e.continuationAddressOffset) % 2 ^ 64) f prev } } := by
  have hg : stackGrow s.e =
      .ok { s.e with stack := s.e.stack ++ List.replicate s.e.stack.length 0 } :=
    (stackGrow_ok_iff s.e _).2 ⟨hlen, rfl⟩
  rw [dispatch_eq_callBuiltIn s cont f prev hlive hs, callBuiltIn_growStack s f prev hidx, hg]
  exact resume_ok _ f prev hf

theorem dispatch_growStack_error (s : state) (cont : Nat) (f : compiledFunction)
    (prev : callFrame)
    (hlive : s.e.callFrameStack = .frame cont f prev)
    (hs : s.e.jitCallStatusCode = jitStatusCallBuiltInFunction)
    (hidx : s.e.functionCallIndex = builtinFunctionIndexGrowStack)
    (hlen : ¬ s.e.stack.length * 2 ≤ maxInt) :
    (dispatch s).isPanic = true := by
  rw [dispatch_eq_callBuiltIn s cont f prev hlive hs, callBuiltIn_growStack s f prev hidx]
  cases hg : stackGrow s.e with
  | error msg => rfl
  | ok e1 =>
    rw [stackGrow_ok_iff] at hg
    exact absurd hg.1 hlen

theorem dispatch_builtin_other (s : state) (cont : Nat) (f : compiledFunction)
    (prev : callFrame)
    (hlive : s.e.callFrameStack = .frame cont f prev) (hf : f.codeSegment ≠ [])
    (hs : s.e.jitCallStatusCode = jitStatusCallBuiltInFunction)
    (h0 : s.e.functionCallIndex ≠ builtinFunctionIndexGrowMemory)
    (h1 : s.e.functionCallIndex ≠ builtinFunctionIndexGrowStack) :
    dispatch s = .done { s with e := { s.e with
      callFrameStack :=
        .frame ((f.codeAddr + s.e.continuationAddressOffset) % 2 ^ 64) f prev } } := by
  rw [dispatch_eq_callBuiltIn s cont f prev hlive hs, callBuiltIn_other s f prev h0 h1]
  exact resume_ok s f prev hf

theorem callHost_ok (s : state) (f : compiledFunction) (prev : callFrame)
    (hfn : hostFunction) (stack1 : List Nat) (sp1 : Nat) (hf : f.codeSegment ≠ [])
    (ht : s.e.hostFunctions[s.e.functionCallIndex]? = some hfn)
    (hr : hfn s.e.stack s.e.sp = .ok (stack1, sp1)) :
    callHost s f prev = .done { s with e := { s.e with
      stack := stack1
      sp := sp1
      callFrameStack :=
        .frame ((f.codeAddr + s.e.continuationAddressOffset) % 2 ^ 64) f prev } } := by
  unfold callHost
  simp only [ht, hr]
  exact resume_ok _ f prev hf

theorem callHost_error (s : state) (f : compiledFunction) (prev : callFrame)
    (hfn : hostFunction) (msg : String)
    (ht : s.e.hostFunctions[s.e.functionCallIndex]? = some hfn)
    (hr : hfn s.e.stack s.e.sp = .error msg) :
    callHost s f prev = .panic (.inHost msg) s := by
  unfold callHost
  simp only [ht, hr]

theorem callHost_no_entry (s : state) (f : compiledFunction) (prev : callFrame)
    (ht : s.e.hostFunctions[s.e.functionCallIndex]? = none) :
    callHost s f prev = .panic (.runtime "index out of range") s := by
  unfold callHost
  simp only [ht]

theorem resume_no_code (s : state) (f : compiledFunction) (prev : callFrame)
    (hf : f.codeSegment = []) :
    resume s f prev = .panic (.runtime "index out of range [0] with length 0") s := by
  unfold resume initialAddress
  simp only [hf, List.length_nil, if_true]

theorem callHost_no_code (s : state) (f : compiledFunction) (prev : callFrame)
    (hfn : hostFunction) (stack1 : List Nat) (sp1 : Nat) (hf : f.codeSegment = [])
    (ht : s.e.hostFunctions[s.e.functionCallIndex]? = some hfn)
    (hr : hfn s.e.stack s.e.sp = .ok (stack1, sp1)) :
    callHost s f prev = .panic (.runtime "index out of range [0] with length 0")
      { s with e := { s.e with stack := stack1, sp := sp1 } } := by
  unfold callHost
  simp only [ht, hr]
  exact resume_no_code _ f prev hf

theorem wrapped_index_out_of_range (stack : List Nat) (sp : Nat) (hsp : sp = 0)
    (hlen : stack.length ≤ maxInt) :
    (sp + 2 ^ 64 - 1) % 2 ^ 64 = 2 ^ 64 - 1 ∧ stack[(sp + 2 ^ 64 - 1) % 2 ^ 64]? = none := by
  have hi : (sp + 2 ^ 64 - 1) % 2 ^ 64 = 2 ^ 64 - 1 := by omega
  refine ⟨hi, ?_⟩
  rw [hi]
  apply List.getElem?_eq_none
  rw [maxInt_eq] at hlen
  omega

theorem hostMul_empty (c : Nat) (stack : List Nat) (sp : Nat) (hsp : sp = 0)
    (hlen : stack.length ≤ maxInt) :
    hostMul c stack sp = .error "index out of range" := by
  unfold hostMul
  simp only [(wrapped_index_out_of_range stack sp hsp hlen).2]

theorem callGrowMemory_empty (s : state) (f : compiledFunction) (hsp : s.e.sp = 0)
    (hlen : s.e.stack.length ≤ maxInt) :
    callGrowMemory s f = .panic (.runtime "index out of range") s := by
  unfold callGrowMemory
  simp only [(wrapped_index_out_of_range s.e.stack s.e.sp hsp hlen).2]

theorem callFunction_done (s s1 : state) (f : compiledFunction) (prev : callFrame)
    (h : callFunction s f prev = .done s1) :
    ∃ nf, s.e.compiledFunctions[s.e.functionCallIndex]? = some (some nf) ∧
      f.codeSegment ≠ [] ∧ nf.codeSegment ≠ [] ∧
      s1 = { s with e := { s.e with
        callFrameStack := .frame nf.codeAddr nf
          (.frame ((f.codeAddr + s.e.continuationAddressOffset) % 2 ^ 64) f prev) } } := by
  unfold callFunction at h
  cases ht : s.e.compiledFunctions[s.e.functionCallIndex]? with
  | none => rw [ht] at h; cases h
  | some entry =>
    rw [ht] at h
    dsimp only at h
    by_cases hf : f.codeSegment = []
    · rw [resume_no_code s f prev hf] at h
      cases h
    · rw [resume_ok s f prev hf] at h
      dsimp only at h
      cases entry with
      | none => cases h
      | some nf =>
        dsimp only at h
        by_cases hnf : nf.codeSegment = []
        · unfold initialAddress at h
          simp only [hnf, List.length_nil, if_true] at h
          cases h
        · rw [initialAddress_ok nf hnf] at h
          injection h with h
          exact ⟨nf, rfl, hf, hnf, h.symm⟩

theorem callFunction_panic (s st : state) (f : compiledFunction) (prev : callFrame)
    (c : panicCause) (h : callFunction s f prev = .panic c st) :
    st.e.callFrameStack = s.e.callFrameStack ∨
    st.e.callFrameStack =
      .frame ((f.codeAddr + s.e.continuationAddressOffset) % 2 ^ 64) f prev := by
  unfold callFunction at h
  cases ht : s.e.compiledFunctions[s.e.functionCallIndex]? with
  | none =>
    rw [ht] at h
    injection h with h1 h2
    subst h2
    exact Or.inl rfl
  | some entry =>
    rw [ht] at h
    dsimp only at h
    by_cases hf : f.codeSegment = []
    · rw [resume_no_code s f prev hf] at h
      injection h with h1 h2
      subst h2
      exact Or.inl rfl
    · rw [resume_ok s f prev hf] at h
      dsimp only at h
      cases entry with
      | none =>
        injection h with h1 h2
        subst h2
        exact Or.inr rfl
      | some nf =>
        dsimp only at h
        by_cases hnf : nf.codeSegment = []
        · unfold initialAddress at h
          simp only [hnf, List.length_nil, if_true] at h
          injection h with h1 h2
          subst h2
          exact Or.inr rfl
        · rw [initialAddress_ok nf hnf] at h
          cases h

theorem callBuiltIn_panic (s st : state) (f : compiledFunction) (prev : callFrame)
    (c : panicCause) (h : callBuiltIn s f prev = .panic c st) :
    st.e.callFrameStack = s.e.callFrameStack := by
  by_cases h0 : s.e.functionCallIndex = builtinFunctionIndexGrowMemory
  · rw [callBuiltIn_growMemory s f prev h0] at h
    cases hc : callGrowMemory s f with
    | panic c2 st2 =>
      rw [hc] at h
      injection h with h1 h2
      rw [← h2]
      exact (callGrowMemory_panic s st2 f c2 hc).1
    | done s2 =>
      rw [hc] at h
      dsimp only at h
      obtain ⟨i, v, m, m1, -, -, -, -, hs2⟩ := callGrowMemory_done s s2 f hc
      obtain ⟨hst, -⟩ := resume_panic s2 st f prev c h
      rw [hst, hs2]
  · by_cases h1 : s.e.functionCallIndex = builtinFunctionIndexGrowStack
    · rw [callBuiltIn_growStack s f prev h1] at h
      cases hc : stackGrow s.e with
      | error msg =>
        rw [hc] at h
        injection h with h1 h2
        rw [← h2]
      | ok e1 =>
        rw [hc] at h
        dsimp only at h
        obtain ⟨hst, -⟩ := resume_panic _ st f prev c h
        rw [stackGrow_ok_iff] at hc
        rw [hst, hc.2]
    · rw [callBuiltIn_other s f prev h0 h1] at h
      obtain ⟨hst, -⟩ := resume_panic s st f prev c h
      rw [hst]

theorem callHost_panic (s st : state) (f : compiledFunction) (prev : callFrame)
    (c : panicCause) (h : callHost s f prev = .panic c st) :
    st.e.callFrameStack = s.e.callFrameStack := by
  unfold callHost at h
  cases ht : s.e.hostFunctions[s.e.functionCallIndex]? with
  | none =>
    rw [ht] at h
    injection h with h1 h2
    rw [← h2]
  | some hfn =>
    rw [ht] at h
    dsimp only at h
    cases hr : hfn s.e.stack s.e.sp with
    | error msg =>
      rw [hr] at h
      injection h with h1 h2
      rw [← h2]
    | ok r =>
      obtain ⟨stack1, sp1⟩ := r
      rw [hr] at h
      dsimp only at h
      obtain ⟨hst, -⟩ := resume_panic _ st f prev c h
      rw [hst]

theorem applyJit_mems_ready (s : state) (f : compiledFunction) (m : memoryInst)
    (w : jitWrites) (hm : s.mems[f.memoryInst]? = some m) (j : Nat) (mj : memoryInst)
    (hj : s.mems[j]? = some mj) (hj0 : mj.buf ≠ []) :
    ∃ mj1, (applyJit s f m.buf w).mems[j]? = some mj1 ∧ mj1.buf ≠ [] := by
  obtain ⟨mj1, h1, h2⟩ := applyJit_mems s f m w j mj hm hj
  refine ⟨mj1, h1, fun h => hj0 ?_⟩
  apply List.length_eq_zero.mp
  rw [← h2, h]
  rfl

theorem execLoop_call (jit : trampoline) (fuel : Nat) (s : state) (cont : Nat)
    (f nf : compiledFunction) (prev : callFrame) (m : memoryInst) (k : Nat)
    (hlive : s.e.callFrameStack = .frame cont f prev)
    (hf : f.codeSegment ≠ []) (hnf : nf.codeSegment ≠ [])
    (hm : s.mems[f.memoryInst]? = some m) (hm0 : m.buf ≠ [])
    (hst : (jit cont s.e m.buf).jitCallStatusCode = jitStatusCallFunction)
    (hoff : (jit cont s.e m.buf).continuationAddressOffset = k)
    (htab : s.e.compiledFunctions[(jit cont s.e m.buf).functionCallIndex]? = some (some nf)) :
    ∃ s2, s2.e.callFrameStack =
        .frame nf.codeAddr nf (.frame ((f.codeAddr + k) % 2 ^ 64) f prev) ∧
      s2.e.compiledFunctions = s.e.compiledFunctions ∧
      (∀ (j : Nat) (mj : memoryInst), s.mems[j]? = some mj → mj.buf ≠ [] →
        ∃ mj1 : memoryInst, s2.mems[j]? = some mj1 ∧ mj1.buf ≠ []) ∧
      execLoop jit (fuel + 1) s =
        { result := (execLoop jit fuel s2).result,
          calls := cont :: (execLoop jit fuel s2).calls } := by
  have hd := callFunction_ok (applyJit s f m.buf (jit cont s.e m.buf)) cont f nf prev
    hlive hst htab hf hnf
  have hoff2 : (applyJit s f m.buf (jit cont s.e m.buf)).e.continuationAddressOffset = k :=
    hoff
  rw [hoff2] at hd
  refine ⟨_, ?_, ?_, ?_, execLoop_done jit fuel s _ cont f prev m hlive hm hm0 hd⟩
  · rfl
  · rfl
  · exact fun j mj hj hj0 => applyJit_mems_ready s f m _ hm j mj hj hj0

theorem execLoop_return (jit : trampoline) (fuel : Nat) (s : state) (cont : Nat)
    (f : compiledFunction) (prev : callFrame) (m : memoryInst)
    (hlive : s.e.callFrameStack = .frame cont f prev)
    (hm : s.mems[f.memoryInst]? = some m) (hm0 : m.buf ≠ [])
    (hst : (jit cont s.e m.buf).jitCallStatusCode = jitStatusReturned) :
    ∃ s2, s2.e.callFrameStack = prev ∧
      s2.e.compiledFunctions = s.e.compiledFunctions ∧
      (∀ (j : Nat) (mj : memoryInst), s.mems[j]? = some mj → mj.buf ≠ [] →
        ∃ mj1 : memoryInst, s2.mems[j]? = some mj1 ∧ mj1.buf ≠ []) ∧
      execLoop jit (fuel + 1) s =
        { result := (execLoop jit fuel s2).result,
          calls := cont :: (execLoop jit fuel s2).calls } := by
  have hd := dispatch_eq_returned (applyJit s f m.buf (jit cont s.e m.buf)) cont f prev
    hlive hst
  refine ⟨_, ?_, ?_, ?_, execLoop_done jit fuel s _ cont f prev m hlive hm hm0 hd⟩
  · rfl
  · rfl
  · exact fun j mj hj hj0 => applyJit_mems_ready s f m _ hm j mj hj hj0

theorem dispatch_done_depth (s s1 : state) (hd : dispatch s = .done s1) :
    (s.e.jitCallStatusCode = jitStatusReturned ∧
      s1.e.callFrameStack.depth + 1 = s.e.callFrameStack.depth) ∨
    (s.e.jitCallStatusCode = jitStatusCallFunction ∧
      s1.e.callFrameStack.depth = s.e.callFrameStack.depth + 1) ∨
    ((s.e.jitCallStatusCode = jitStatusCallBuiltInFunction ∨
        s.e.jitCallStatusCode = jitStatusCallHostFunction) ∧
      s1.e.callFrameStack.depth = s.e.callFrameStack.depth) := by
  cases hlive : s.e.callFrameStack with
  | null =>
    unfold dispatch at hd
    rw [hlive] at hd
    cases hd
  | frame cont f prev =>
    rw [dispatch_live s cont f prev hlive] at hd
    split at hd
    · rename_i h0
      injection hd with hd
      subst hd
      exact Or.inl ⟨h0, rfl⟩
    · split at hd
      · rename_i h0 h1
        obtain ⟨nf, -, -, -, hs1⟩ := callFunction_done s s1 f prev hd
        subst hs1
        exact Or.inr (Or.inl ⟨h1, rfl⟩)
      · split at hd
        · rename_i h0 h1 h2
          refine Or.inr (Or.inr ⟨Or.inl h2, ?_⟩)
          rw [(callBuiltIn_done_effect s s1 f prev hd).2.1]
          rfl
        · split at hd
          · rename_i h0 h1 h2 h3
            obtain ⟨hfn, stack1, sp1, -, -, -, hs1⟩ := callHost_done s s1 f prev hd
            subst hs1
            exact Or.inr (Or.inr ⟨Or.inr h3, rfl⟩)
          · cases hd

theorem runSteps_succ_some (jit : trampoline) (k : Nat) (s sk : state) (sts : List Nat)
    (h : runSteps jit (k + 1) s = some (sts, sk)) :
    ∃ cont f prev m s2 sts1, s.e.callFrameStack = .frame cont f prev ∧
      s.mems[f.memoryInst]? = some m ∧ m.buf ≠ [] ∧
      dispatch (applyJit s f m.buf (jit cont s.e m.buf)) = .done s2 ∧
      runSteps jit k s2 = some (sts1, sk) ∧
      sts = (jit cont s.e m.buf).jitCallStatusCode :: sts1 := by
  unfold runSteps at h
  cases hlive : s.e.callFrameStack with
  | null => rw [hlive] at h; cases h
  | frame cont f prev =>
    rw [hlive] at h
    dsimp only at h
    cases hm : s.mems[f.memoryInst]? with
    | none => rw [hm] at h; cases h
    | some m =>
      rw [hm] at h
      dsimp only at h
      by_cases hm0 : m.buf.length = 0
      · rw [if_pos hm0] at h
        cases h
      · rw [if_neg hm0] at h
        cases hd : dispatch (applyJit s f m.buf (jit cont s.e m.buf)) with
        | panic c st => rw [hd] at h; cases h
        | done s2 =>
          rw [hd] at h
          dsimp only at h
          cases hr : runSteps jit k s2 with
          | none => rw [hr] at h; cases h
          | some r =>
            obtain ⟨sts1, sk1⟩ := r
            rw [hr] at h
            dsimp only at h
            injection h with h
            injection h with h1 h2
            subst h2
            exact ⟨cont, f, prev, m, s2, sts1, rfl, hm,
              fun hb => hm0 (by rw [hb]; rfl), hd, hr, h1.symm⟩

theorem runSteps_succ_eq (jit : trampoline) (k : Nat) (s s2 sk : state) (cont : Nat)
    (f : compiledFunction) (prev : callFrame) (m : memoryInst) (sts1 : List Nat)
    (hlive : s.e.callFrameStack = .frame cont f prev)
    (hm : s.mems[f.memoryInst]? = some m) (hm0 : m.buf ≠ [])
    (hd : dispatch (applyJit s f m.buf (jit cont s.e m.buf)) = .done s2)
    (hr : runSteps jit k s2 = some (sts1, sk)) :
    runSteps jit (k + 1) s = some ((jit cont s.e m.buf).jitCallStatusCode :: sts1, sk) := by
  have h1 : m.buf.length ≠ 0 := fun h2 => hm0 (List.length_eq_zero.mp h2)
  conv_lhs => unfold runSteps
  rw [hlive]
  simp only [hm, h1, if_false, hd, hr]

theorem runSteps_depth (jit : trampoline) (k : Nat) :
    ∀ (s sk : state) (sts : List Nat), runSteps jit k s = some (sts, sk) →
      sts.length = k ∧
      sk.e.callFrameStack.depth + sts.count jitStatusReturned =
        s.e.callFrameStack.depth + sts.count jitStatusCallFunction := by
  induction k with
  | zero =>
    intro s sk sts h
    unfold runSteps at h
    injection h with h
    injection h with h1 h2
    subst h1
    subst h2
    exact ⟨rfl, rfl⟩
  | succ k ih =>
    intro s sk sts h
    obtain ⟨cont, f, prev, m, s2, sts1, hlive, hm, hm0, hd, hr, hsts⟩ :=
      runSteps_succ_some jit k s sk sts h
    obtain ⟨hlen, hdep⟩ := ih s2 sk sts1 hr
    subst hsts
    refine ⟨by rw [List.length_cons, hlen], ?_⟩
    have hfr : (applyJit s f m.buf (jit cont s.e m.buf)).e.callFrameStack.depth =
        s.e.callFrameStack.depth := rfl
    have hst : (applyJit s f m.buf (jit cont s.e m.buf)).e.jitCallStatusCode =
        (jit cont s.e m.buf).jitCallStatusCode := rfl
    have hcases := dispatch_done_depth _ s2 hd
    rw [hfr, hst] at hcases
    rcases hcases with ⟨h0, h1⟩ | ⟨h0, h1⟩ | ⟨h0 | h0, h1⟩
    all_goals
      rw [h0]
      simp only [List.count_cons, jitStatusReturned, jitStatusCallFunction,
        jitStatusCallBuiltInFunction, jitStatusCallHostFunction] at hdep ⊢
      simp
      omega

theorem runSteps_prefix (jit : trampoline) (k : Nat) :
    ∀ (s sk : state) (sts : List Nat), runSteps jit k s = some (sts, sk) →
      ∀ j, j < k → ∃ sj, runSteps jit j s = some (sts.take j, sj) ∧
        0 < sj.e.callFrameStack.depth := by
  induction k with
  | zero => intro s sk sts _ j hj; omega
  | succ k ih =>
    intro s sk sts h j hj
    obtain ⟨cont, f, prev, m, s2, sts1, hlive, hm, hm0, hd, hr, hsts⟩ :=
      runSteps_succ_some jit k s sk sts h
    subst hsts
    cases j with
    | zero =>
      refine ⟨s, rfl, ?_⟩
      rw [hlive]
      exact Nat.succ_pos _
    | succ j =>
      obtain ⟨sj, hj1, hj2⟩ := ih s2 sk sts1 hr j (by omega)
      exact ⟨sj, runSteps_succ_eq jit j s s2 sj cont f prev m _ hlive hm hm0 hd hj1, hj2⟩

theorem runSteps_execLoop (jit : trampoline) (k : Nat) :
    ∀ (s sk : state) (sts : List Nat), runSteps jit k s = some (sts, sk) →
      ∃ cs : List Nat, cs.length = k ∧ ∀ fuel,
        execLoop jit (k + fuel) s =
          { result := (execLoop jit fuel sk).result,
            calls := cs ++ (execLoop jit fuel sk).calls } := by
  induction k with
  | zero =>
    intro s sk sts h
    unfold runSteps at h
    injection h with h
    injection h with h1 h2
    subst h2
    refine ⟨[], rfl, fun fuel => ?_⟩
    rw [Nat.zero_add]
    rfl
  | succ k ih =>
    intro s sk sts h
    obtain ⟨cont, f, prev, m, s2, sts1, hlive, hm, hm0, hd, hr, -⟩ :=
      runSteps_succ_some jit k s sk sts h
    obtain ⟨cs, hcs, hloop⟩ := ih s2 sk sts1 hr
    refine ⟨cont :: cs, by rw [List.length_cons, hcs], fun fuel => ?_⟩
    have hk : k + 1 + fuel = (k + fuel) + 1 := by omega
    rw [hk, execLoop_done jit (k + fuel) s s2 cont f prev m hlive hm hm0 hd, hloop fuel]
    rfl

theorem execLoop_done_null (jit : trampoline) (fuel : Nat) :
    ∀ (s s1 : state), (execLoop jit fuel s).result = some (.done s1) →
      s1.e.callFrameStack = .null := by
  induction fuel with
  | zero =>
    intro s s1 h
    unfold execLoop at h
    cases h
  | succ fuel ih =>
    intro s s1 h
    cases hlive : s.e.callFrameStack with
    | null =>
      rw [execLoop_null jit fuel s hlive] at h
      injection h with h
      injection h with h
      rw [← h]
      exact hlive
    | frame cont f prev =>
      cases hm : s.mems[f.memoryInst]? with
      | none =>
        unfold execLoop at h
        rw [hlive] at h
        simp only [hm] at h
        cases h
      | some m =>
        by_cases hm0 : m.buf = []
        · unfold execLoop at h
          rw [hlive] at h
          simp only [hm, hm0, List.length_nil, if_true] at h
          cases h
        · cases hd : dispatch (applyJit s f m.buf (jit cont s.e m.buf)) with
          | panic c st =>
            rw [execLoop_panic jit fuel s st cont f prev m c hlive hm hm0 hd] at h
            cases h
          | done s2 =>
            rw [execLoop_done jit fuel s s2 cont f prev m hlive hm hm0 hd] at h
            exact ih s2 s1 h

/-! ## Memory growth (C1 - C3) -/

/-- C1, as stated, fails: on a fresh instance `memoryGrow(2^54)` completes and
leaves the length at 1024, because the byte count `1024 * 2^54` wraps to 0 as
a `uint64`; the claimed length is `1024 + 2^54 * 1024`. -/
theorem memoryGrowAll_length_wraps :
    (2 : Nat) ^ 54 < 2 ^ 64 ∧
    ∃ m1, memoryGrowAll newMemoryInst [2 ^ 54] = .ok m1 ∧
      m1.buf.length = 1024 ∧
      m1.buf.length ≠
        newMemoryInst.buf.length + ([2 ^ 54].map (fun p => p * 1024)).sum := by
  refine ⟨by norm_num, newMemoryInst, ?_, newMemoryInst_length, ?_⟩
  · have h : memoryGrow newMemoryInst (2 ^ 54) = .ok newMemoryInst := by
      rw [memoryGrow_ok_iff, wrapped_pages, newMemoryInst_length, maxAlloc_eq]
      refine ⟨by norm_num, ?_⟩
      simp only [List.replicate_zero, List.append_nil]
    simp only [memoryGrowAll, h]
  · rw [newMemoryInst_length]
    simp only [List.map_cons, List.map_nil, List.sum_cons, List.sum_nil]
    norm_num

/-- C1 (amended): a fresh instance starts at 1024 bytes; for every memory
instance and every sequence of page counts `p1..pn`, whenever the calls
`memoryGrow(p1), ..., memoryGrow(pn)` all complete, the buffer length is the
initial length plus the sum of the `uint64` byte counts
`(1024 * pi) mod 2^64`, which is the sum of `pi * 1024` when every `pi` is
below `2^54` (no byte count wraps around). The calls do all complete when
the initial length plus the sum of `pi * 1024` is at most `maxAlloc`. -/
theorem memoryGrowAll_length (m : memoryInst) (ps : List Nat) :
    newMemoryInst.buf.length = 1024 ∧
    (∀ m1, memoryGrowAll m ps = .ok m1 →
      m1.buf.length = m.buf.length + (ps.map (fun p => (1024 * p) % 2 ^ 64)).sum ∧
      ((∀ p, p ∈ ps → p < 2 ^ 54) →
        m1.buf.length = m.buf.length + (ps.map (fun p => p * 1024)).sum)) ∧
    (m.buf.length + (ps.map (fun p => p * 1024)).sum ≤ maxAlloc →
      ∃ m1, memoryGrowAll m ps = .ok m1 ∧
        m1.buf.length = m.buf.length + (ps.map (fun p => p * 1024)).sum) := by
  refine ⟨newMemoryInst_length, fun m1 h => ⟨memoryGrowAll_length_mod ps m m1 h, fun hp => ?_⟩,
    fun h => memoryGrowAll_in_range ps m h⟩
  rw [memoryGrowAll_length_mod ps m m1 h, sum_pages_no_wrap ps hp]

theorem fresh_two_grows_in_range :
    newMemoryInst.buf.length + ([1, 2].map (fun p => p * 1024)).sum ≤ maxAlloc := by
  rw [newMemoryInst_length, maxAlloc_eq]
  simp only [List.map_cons, List.map_nil, List.sum_cons, List.sum_nil]
  norm_num

/-- Witness of C1 (amended): a fresh instance grown by 1 page, then by 2,
ends at `1024 + 3 * 1024` bytes. -/
theorem memoryGrowAll_length_witness :
    ∃ m1, memoryGrowAll newMemoryInst [1, 2] = .ok m1 ∧
      m1.buf.length = newMemoryInst.buf.length + ([1, 2].map (fun p => p * 1024)).sum ∧
      m1.buf.length = 1024 + 3 * 1024 := by
  obtain ⟨m1, h1, h2⟩ :=
    (memoryGrowAll_length newMemoryInst [1, 2]).2.2 fresh_two_grows_in_range
  refine ⟨m1, h1, h2, ?_⟩
  rw [h2, newMemoryInst_length]
  simp only [List.map_cons, List.map_nil, List.sum_cons, List.sum_nil]
  norm_num

/-- C2: whenever `memoryGrow(p)` completes, every byte below the old length
is unchanged at its offset and the length has not decreased; the same holds
across any sequence of grows. (It completes whenever the new length is within
`maxAlloc`.) -/
theorem memoryGrow_preserves (m : memoryInst) (p : Nat) :
    (m.buf.length + 1024 * p ≤ maxAlloc → ∃ m1, memoryGrow m p = .ok m1) ∧
    (∀ m1, memoryGrow m p = .ok m1 →
      m.buf.length ≤ m1.buf.length ∧
        ∀ i, i < m.buf.length → m1.buf[i]? = m.buf[i]?) ∧
    (∀ ps m1, memoryGrowAll m ps = .ok m1 →
      m.buf.length ≤ m1.buf.length ∧
        ∀ i, i < m.buf.length → m1.buf[i]? = m.buf[i]?) :=
  ⟨fun h => ⟨_, memoryGrow_in_range m p h⟩,
   fun m1 h => ⟨memoryGrow_length_le m p m1 h, memoryGrow_getElem? m p m1 h⟩,
   fun ps m1 h => memoryGrowAll_preserves ps m m1 h⟩

theorem small_grow_in_range (xs : List Nat) (h : xs.length ≤ 8) :
    xs.length + 1024 * 1 ≤ maxAlloc := by
  rw [maxAlloc_eq]; omega

/-- Witness of C2: the buffer `[7, 8, 9]` grown by one page keeps its three
bytes. -/
theorem memoryGrow_preserves_witness :
    ∃ m1, memoryGrow { buf := [7, 8, 9] } 1 = .ok m1 ∧
      3 ≤ m1.buf.length ∧ m1.buf[0]? = some 7 ∧ m1.buf[2]? = some 9 := by
  have h := memoryGrow_preserves { buf := [7, 8, 9] } 1
  obtain ⟨m1, hm⟩ := h.1 (small_grow_in_range [7, 8, 9] (by simp))
  have h2 := h.2.1 m1 hm
  exact ⟨m1, hm, h2.1, h2.2 0 (by simp), h2.2 2 (by simp)⟩

/-- C3, as stated, fails: `memoryGrow(2^54)` on the one-byte buffer `[7]`
completes and adds nothing, not `2^54` page-sized chunks of zero bytes. -/
theorem memoryGrow_pages_wraps :
    (2 : Nat) ^ 54 < 2 ^ 64 ∧
    ∃ m1, memoryGrow { buf := [7] } (2 ^ 54) = .ok m1 ∧
      m1.buf = [7] ∧
      m1.buf ≠ [7] ++ List.replicate (2 ^ 54 * 1024) 0 := by
  refine ⟨by norm_num, { buf := [7] }, ?_, rfl, ?_⟩
  · rw [memoryGrow_ok_iff, wrapped_pages, maxAlloc_eq]
    refine ⟨by simp, ?_⟩
    simp only [List.replicate_zero, List.append_nil]
  · exact ne_append_replicate [7] (2 ^ 54 * 1024) (by norm_num)

/-- C3 (amended): whenever `memoryGrow(p)` completes, the new buffer is the
old buffer followed by `(1024 * p) mod 2^64` zero bytes, so every offset from
the old length up to the new length holds zero; for `p` below `2^54` (no
wrap-around) these are `p` page-sized chunks of zero bytes. (It completes
whenever the new length is within `maxAlloc`.) -/
theorem memoryGrow_appends_zeros (m : memoryInst) (p : Nat) :
    (∀ m1, memoryGrow m p = .ok m1 →
      m1.buf = m.buf ++ List.replicate ((1024 * p) % 2 ^ 64) 0 ∧
      (∀ i, m.buf.length ≤ i → i < m1.buf.length → m1.buf[i]? = some 0) ∧
      (p < 2 ^ 54 → m1.buf = m.buf ++ List.replicate (p * 1024) 0)) ∧
    (m.buf.length + 1024 * p ≤ maxAlloc →
      memoryGrow m p = .ok { buf := m.buf ++ List.replicate (p * 1024) 0 }) := by
  refine ⟨fun m1 h => ?_, fun h => memoryGrow_in_range m p h⟩
  rw [memoryGrow_ok_iff] at h
  rw [h.2]
  refine ⟨rfl, fun i h1 h2 => ?_, fun hp => ?_⟩
  · simp only [List.length_append, List.length_replicate] at h2
    rw [List.getElem?_append_right h1, List.getElem?_replicate]
    simp only [ite_eq_left_iff, not_lt]
    intro h3
    omega
  · show m.buf ++ List.replicate ((1024 * p) % 2 ^ 64) 0 = m.buf ++ List.replicate (p * 1024) 0
    rw [no_wrap_pages p hp]

/-- Witness of C3 (amended): the buffer `[7]` grown by one page. -/
theorem memoryGrow_appends_zeros_witness :
    ∃ m1, memoryGrow { buf := [7] } 1 = .ok m1 ∧
      m1.buf = [7] ++ List.replicate (1 * 1024) 0 := by
  have h := memoryGrow_appends_zeros { buf := [7] } 1
  have hg := h.2 (small_grow_in_range [7] (by simp))
  exact ⟨_, hg, (h.1 _ hg).2.2 (by norm_num)⟩

/-! ## Stack growth (C4, C5) -/

/-- C4: for every engine state with `sp <= len(stack)`, `stackGrow` completes
whenever the doubled length fits `int`; and whenever it completes, the stack
length is exactly twice the prior one, every slot at an index in `[0, sp)`
holds the same value as before, and `sp` is unchanged. -/
theorem stackGrow_doubles (e : engine) (hsp : e.sp ≤ e.stack.length) :
    (e.stack.length * 2 ≤ maxInt → ∃ e1, stackGrow e = .ok e1) ∧
    (∀ e1, stackGrow e = .ok e1 →
      e1.stack.length = 2 * e.stack.length ∧
      (∀ i, i < e.sp → e1.stack[i]? = e.stack[i]?) ∧
      e1.sp = e.sp) := by
  refine ⟨fun h => ⟨_, (stackGrow_ok_iff e _).2 ⟨h, rfl⟩⟩, fun e1 h => ?_⟩
  rw [stackGrow_ok_iff] at h
  rw [h.2]
  refine ⟨?_, fun i hi => ?_, rfl⟩
  · simp only [List.length_append, List.length_replicate]; omega
  · exact List.getElem?_append_left (lt_of_lt_of_le hi hsp)

theorem smallEngine_in_range : smallEngine.stack.length * 2 ≤ maxInt := by
  rw [maxInt_eq]
  simp [smallEngine]

/-- Witness of C4: the three-slot engine with `sp = 2`. -/
theorem stackGrow_doubles_witness :
    smallEngine.sp ≤ smallEngine.stack.length ∧
    ∃ e1, stackGrow smallEngine = .ok e1 ∧
      e1.stack.length = 2 * smallEngine.stack.length ∧
      e1.stack[0]? = some 5 ∧ e1.stack[1]? = some 6 ∧ e1.sp = 2 := by
  have hsp : smallEngine.sp ≤ smallEngine.stack.length := by simp [smallEngine]
  have h := stackGrow_doubles smallEngine hsp
  obtain ⟨e1, he⟩ := h.1 smallEngine_in_range
  have h2 := h.2 e1 he
  exact ⟨hsp, e1, he, h2.1, h2.2.1 0 (by simp [smallEngine]),
    h2.2.1 1 (by simp [smallEngine]), h2.2.2⟩

/-- C5, as stated, fails: on the zero-value engine (`&engine{}`, as the
package variable `_e`) the stack is empty, `stackGrow` completes and the
capacity stays 0: it is not strictly larger. -/
theorem stackGrow_empty_not_larger :
    ∃ e1, stackGrow zeroEngine = .ok e1 ∧
      e1.stack.length = 0 ∧ ¬ zeroEngine.stack.length < e1.stack.length := by
  refine ⟨{ zeroEngine with stack := zeroEngine.stack ++ List.replicate zeroEngine.stack.length 0 },
    ?_, ?_, ?_⟩
  · rw [stackGrow_ok_iff]
    exact ⟨by simp [zeroEngine], rfl⟩
  · simp [zeroEngine]
  · simp [zeroEngine]

/-- C5 (amended): whenever `stackGrow` completes the capacity is exactly twice
the prior one and never smaller; it is strictly larger exactly when the stack
was not empty (as for every engine of `newEngine`, whose stack has 100 slots);
and `stackGrow` completes whenever the doubled length fits `int`. -/
theorem stackGrow_strictly_larger (e : engine) :
    newEngine.stack.length = 100 ∧
    (e.stack.length * 2 ≤ maxInt → ∃ e1, stackGrow e = .ok e1) ∧
    (∀ e1, stackGrow e = .ok e1 →
      e1.stack.length = 2 * e.stack.length ∧
      e.stack.length ≤ e1.stack.length ∧
      (e.stack.length < e1.stack.length ↔ 0 < e.stack.length)) := by
  refine ⟨List.length_replicate 100 0, fun h => ⟨_, (stackGrow_ok_iff e _).2 ⟨h, rfl⟩⟩,
    fun e1 h => ?_⟩
  rw [stackGrow_ok_iff] at h
  rw [h.2]
  simp only [List.length_append, List.length_replicate]
  omega

/-- Witness of C5 (amended): the three-slot engine grows to six slots. -/
theorem stackGrow_strictly_larger_witness :
    ∃ e1, stackGrow smallEngine = .ok e1 ∧
      smallEngine.stack.length < e1.stack.length := by
  have h := stackGrow_strictly_larger smallEngine
  obtain ⟨e1, he⟩ := h.2.1 smallEngine_in_range
  exact ⟨e1, he, ((h.2.2 e1 he).2.2).2 (by simp [smallEngine])⟩

/-! ## Return and call (C6 - C8) -/

/-- C6: for every state whose frame chain has depth `N >= 1` and in which the
trampoline has returned with status `Returned`, the dispatch step completes
and removes exactly one frame: the new live frame is the parent of the old
one and the chain has depth `N - 1`; when `N = 1` the live frame becomes null
and the loop of `exec` ends without invoking the trampoline again. -/
theorem dispatch_returned (s : state) (hN : 1 ≤ s.e.callFrameStack.depth)
    (hs : s.e.jitCallStatusCode = jitStatusReturned) :
    ∃ cont f prev, s.e.callFrameStack = .frame cont f prev ∧
      dispatch s = .done { s with e := { s.e with callFrameStack := prev } } ∧
      prev.depth = s.e.callFrameStack.depth - 1 ∧
      (s.e.callFrameStack.depth = 1 →
        prev = .null ∧
        ∀ (jit : trampoline) (fuel : Nat),
          execLoop jit (fuel + 1) { s with e := { s.e with callFrameStack := prev } } =
            { result := some (.done { s with e := { s.e with callFrameStack := prev } }),
              calls := [] }) := by
  cases hlive : s.e.callFrameStack with
  | null => rw [hlive] at hN; simp [callFrame.depth] at hN
  | frame cont f prev =>
    refine ⟨cont, f, prev, rfl, ?_, by simp [callFrame.depth], fun h1 => ?_⟩
    · exact dispatch_eq_returned s cont f prev hlive hs
    · have hp : prev = .null := by
        cases prev with
        | null => rfl
        | frame c g q => simp [callFrame.depth] at h1
      exact ⟨hp, fun jit fuel => execLoop_null jit fuel _ hp⟩

/-- Witness of C6: the root frame of `fnA` returns. -/
theorem dispatch_returned_witness :
    1 ≤ (demoState 0 0 0 []).e.callFrameStack.depth ∧
    ∃ cont f prev, (demoState 0 0 0 []).e.callFrameStack = .frame cont f prev ∧
      dispatch (demoState 0 0 0 []) =
        .done { demoState 0 0 0 [] with
          e := { (demoState 0 0 0 []).e with callFrameStack := prev } } ∧
      prev.depth = (demoState 0 0 0 []).e.callFrameStack.depth - 1 ∧
      ((demoState 0 0 0 []).e.callFrameStack.depth = 1 →
        prev = .null ∧
        ∀ (jit : trampoline) (fuel : Nat),
          execLoop jit (fuel + 1)
            { demoState 0 0 0 [] with
              e := { (demoState 0 0 0 []).e with callFrameStack := prev } } =
            { result := some (.done { demoState 0 0 0 [] with
                e := { (demoState 0 0 0 []).e with callFrameStack := prev } }),
              calls := [] }) :=
  ⟨by decide, dispatch_returned (demoState 0 0 0 []) (by decide) rfl⟩

/-- C7, as stated, fails: the call-target index 0 is within the table, but the
table entry has an empty code segment, so `nextFunc.initialAddress()` panics
(index out of range) and no frame is made live. -/
theorem dispatch_callFunction_no_code :
    (demoState 1 0 16 [some fnNoCode]).e.functionCallIndex <
      (demoState 1 0 16 [some fnNoCode]).e.compiledFunctions.length ∧
    (demoState 1 0 16 [some fnNoCode]).e.jitCallStatusCode = jitStatusCallFunction ∧
    (dispatch (demoState 1 0 16 [some fnNoCode])).cause =
      some (.runtime "index out of range [0] with length 0") :=
  ⟨by decide, rfl, rfl⟩

/-- C7 (amended): for every state with a live frame whose function has a
non-empty code segment, whose call-target index `i` is within the table and
whose table entry `i` is a (non-nil) function with a non-empty code segment:
on status `CallFunction` the dispatch step completes, sets the continuation of
the current frame to its own function's entry address plus the saved offset
(a `uintptr` sum), and makes live a new frame whose function is table entry
`i`, whose continuation is that function's entry address and whose parent is
the former current frame; the depth grows by exactly one. -/
theorem dispatch_callFunction (s : state) (cont : Nat) (f nf : compiledFunction)
    (prev : callFrame)
    (hlive : s.e.callFrameStack = .frame cont f prev)
    (hs : s.e.jitCallStatusCode = jitStatusCallFunction)
    (hidx : s.e.compiledFunctions[s.e.functionCallIndex]? = some (some nf))
    (hf : f.codeSegment ≠ []) (hnf : nf.codeSegment ≠ []) :
    initialAddress f = .ok f.codeAddr ∧ initialAddress nf = .ok nf.codeAddr ∧
    dispatch s = .done { s with e := { s.e with
      callFrameStack := .frame nf.codeAddr nf
        (.frame ((f.codeAddr + s.e.continuationAddressOffset) % 2 ^ 64) f prev) } } ∧
    (callFrame.frame nf.codeAddr nf
        (.frame ((f.codeAddr + s.e.continuationAddressOffset) % 2 ^ 64) f prev)).depth =
      s.e.callFrameStack.depth + 1 ∧
    (f.codeAddr + s.e.continuationAddressOffset < 2 ^ 64 →
      (f.codeAddr + s.e.continuationAddressOffset) % 2 ^ 64 =
        f.codeAddr + s.e.continuationAddressOffset) := by
  refine ⟨initialAddress_ok f hf, initialAddress_ok nf hnf, ?_, ?_, fun h => Nat.mod_eq_of_lt h⟩
  · exact callFunction_ok s cont f nf prev hlive hs hidx hf hnf
  · rw [hlive]
    simp [callFrame.depth]

/-- Witness of C7 (amended): `fnA` calls table entry 1, `fnB`, with
continuation offset 16. -/
theorem dispatch_callFunction_witness :
    dispatch (demoState 1 1 16 [some fnA, some fnB]) =
      .done { demoState 1 1 16 [some fnA, some fnB] with
        e := { (demoState 1 1 16 [some fnA, some fnB]).e with
          callFrameStack := .frame 8192 fnB (.frame 4112 fnA .null) } } :=
  (dispatch_callFunction (demoState 1 1 16 [some fnA, some fnB]) 4096 fnA fnB .null
    rfl rfl rfl (by decide) (by decide)).2.2.1

/-- C8: let `A` be the function of the live frame and `B` table entry `i`
(`A = B` allowed), both with code and with a non-empty memory buffer. If the
trampoline, run on `A`, signals `CallFunction` with target `i` and
continuation offset `k`, and the trampoline, then run on the frame of `B` in
the state so reached, signals `Returned`, then the two dispatch steps
complete, the live frame afterwards is the frame of `A` (same parent) with
continuation `A.initialAddress() + k` (a `uintptr` sum), the third trampoline
invocation is given that address, and it differs from the raw entry address
of `A` whenever `k` is non-zero. -/
theorem call_return_roundtrip (jit : trampoline) (s : state) (contA : Nat)
    (A B : compiledFunction) (prev : callFrame) (mA mB : memoryInst) (i k : Nat)
    (hlive : s.e.callFrameStack = .frame contA A prev)
    (hA : A.codeSegment ≠ []) (hB : B.codeSegment ≠ [])
    (hmA : s.mems[A.memoryInst]? = some mA) (hmA0 : mA.buf ≠ [])
    (hmB : s.mems[B.memoryInst]? = some mB) (hmB0 : mB.buf ≠ [])
    (htab : s.e.compiledFunctions[i]? = some (some B))
    (hcall : (jit contA s.e mA.buf).jitCallStatusCode = jitStatusCallFunction ∧
      (jit contA s.e mA.buf).functionCallIndex = i ∧
      (jit contA s.e mA.buf).continuationAddressOffset = k)
    (hret : ∀ s1 mB1,
      dispatch (applyJit s A mA.buf (jit contA s.e mA.buf)) = .done s1 →
      s1.mems[B.memoryInst]? = some mB1 →
      (jit B.codeAddr s1.e mB1.buf).jitCallStatusCode = jitStatusReturned) :
    initialAddress A = .ok A.codeAddr ∧
    ∃ s1 s2 mB1,
      dispatch (applyJit s A mA.buf (jit contA s.e mA.buf)) = .done s1 ∧
      s1.e.callFrameStack =
        .frame B.codeAddr B (.frame ((A.codeAddr + k) % 2 ^ 64) A prev) ∧
      s1.mems[B.memoryInst]? = some mB1 ∧
      dispatch (applyJit s1 B mB1.buf (jit B.codeAddr s1.e mB1.buf)) = .done s2 ∧
      s2.e.callFrameStack = .frame ((A.codeAddr + k) % 2 ^ 64) A prev ∧
      (∀ fuel, ∃ rest, (execLoop jit (fuel + 3) s).calls =
        contA :: B.codeAddr :: ((A.codeAddr + k) % 2 ^ 64) :: rest) ∧
      (0 < k → k < 2 ^ 64 → (A.codeAddr + k) % 2 ^ 64 ≠ A.codeAddr) ∧
      (A.codeAddr + k < 2 ^ 64 → (A.codeAddr + k) % 2 ^ 64 = A.codeAddr + k) := by
  obtain ⟨hc1, hc2, hc3⟩ := hcall
  refine ⟨initialAddress_ok A hA, ?_⟩
  -- first iteration: `A` calls `B`
  have hidx : (applyJit s A mA.buf (jit contA s.e mA.buf)).e.compiledFunctions[
      (applyJit s A mA.buf (jit contA s.e mA.buf)).e.functionCallIndex]? = some (some B) := by
    show s.e.compiledFunctions[(jit contA s.e mA.buf).functionCallIndex]? = some (some B)
    rw [hc2]
    exact htab
  have hd1 := callFunction_ok (applyJit s A mA.buf (jit contA s.e mA.buf)) contA A B prev
    hlive hc1 hidx hA hB
  have hoff : (applyJit s A mA.buf (jit contA s.e mA.buf)).e.continuationAddressOffset = k := hc3
  rw [hoff] at hd1
  obtain ⟨mB1, hmB1, hlB1⟩ := applyJit_mems s A mA (jit contA s.e mA.buf) B.memoryInst mB hmA hmB
  obtain ⟨mA1, hmA1, hlA1⟩ := applyJit_mems s A mA (jit contA s.e mA.buf) A.memoryInst mA hmA hmA
  have hmB10 : mB1.buf ≠ [] := by
    intro h; apply hmB0; apply List.length_eq_zero.mp; rw [← hlB1, h]; rfl
  -- second iteration: `B` returns
  generalize hs1 : ({ applyJit s A mA.buf (jit contA s.e mA.buf) with
      e := { (applyJit s A mA.buf (jit contA s.e mA.buf)).e with
        callFrameStack :=
          .frame B.codeAddr B (.frame ((A.codeAddr + k) % 2 ^ 64) A prev) } } : state) = s1
    at hd1
  have hlive1 : s1.e.callFrameStack =
      .frame B.codeAddr B (.frame ((A.codeAddr + k) % 2 ^ 64) A prev) := by
    rw [← hs1]
  have hmems1 : s1.mems = (applyJit s A mA.buf (jit contA s.e mA.buf)).mems := by
    rw [← hs1]
  rw [← hmems1] at hmB1 hmA1
  have hd2 := dispatch_eq_returned (applyJit s1 B mB1.buf (jit B.codeAddr s1.e mB1.buf))
    B.codeAddr B (.frame ((A.codeAddr + k) % 2 ^ 64) A prev) hlive1 (hret s1 mB1 hd1 hmB1)
  obtain ⟨mA2, hmA2, hlA2⟩ := applyJit_mems s1 B mB1 (jit B.codeAddr s1.e mB1.buf)
    A.memoryInst mA1 hmB1 hmA1
  have hmA20 : mA2.buf ≠ [] := by
    intro h; apply hmA0; apply List.length_eq_zero.mp; rw [← hlA1, ← hlA2, h]; rfl
  refine ⟨s1, _, mB1, hd1, hlive1, hmB1, hd2, rfl, fun fuel => ?_,
    fun h1 h2 => wrapped_sum_ne A.codeAddr k h1 h2, fun h => Nat.mod_eq_of_lt h⟩
  obtain ⟨rest, hrest⟩ := execLoop_calls_head jit fuel
    { applyJit s1 B mB1.buf (jit B.codeAddr s1.e mB1.buf) with
      e := { (applyJit s1 B mB1.buf (jit B.codeAddr s1.e mB1.buf)).e with
        callFrameStack := .frame ((A.codeAddr + k) % 2 ^ 64) A prev } }
    ((A.codeAddr + k) % 2 ^ 64) A prev mA2 rfl hmA2 hmA20
  refine ⟨rest, ?_⟩
  rw [execLoop_done jit (fuel + 2) s s1 contA A prev mA hlive hmA hmA0 hd1]
  simp only
  rw [execLoop_done jit (fuel + 1) s1 _ B.codeAddr B _ mB1 hlive1 hmB1 hmB10 hd2]
  simp only
  rw [hrest]

/-- Witness of C8: a self-call. `fnA` (entry 4096) calls table entry 0,
which is `fnA` itself, with offset 16, and the callee returns at once; the
trampoline is given 4096, 4096 again, then 4112. -/
theorem call_return_roundtrip_witness :
    ∃ rest, (execLoop selfJit 3 (demoState 0 0 0 [some fnA])).calls =
      4096 :: 4096 :: 4112 :: rest := by
  obtain ⟨-, s1, s2, mB1, -, -, -, -, -, h, -⟩ :=
    call_return_roundtrip selfJit (demoState 0 0 0 [some fnA]) 4096 fnA fnA
      .null { buf := [0, 0] } { buf := [0, 0] } 0 16 rfl (by decide) (by decide) rfl
      (by decide) rfl (by decide) rfl ⟨rfl, rfl, rfl⟩
      (by
        intro s1 mB1 hd _
        have hd1 := callFunction_ok
          (applyJit (demoState 0 0 0 [some fnA]) fnA [0, 0]
            (selfJit 4096 (demoState 0 0 0 [some fnA]).e [0, 0]))
          4096 fnA fnA .null rfl rfl rfl (by decide) (by decide)
        rw [hd1] at hd
        injection hd with hd
        subst hd
        rfl)
  exact h 0

/-! ## Host call and invalid status (C9, C10) -/

/-- C9: for a state whose host table is that of `newEngine`, with
`1 <= sp <= len(stack)` and a live frame (whose function has code): on status
`CallHostFunction` with call-target index 1 the dispatch step completes; it
replaces `stack[sp-1]` by its old value times 200 (a `uint64` product), leaves
every other slot, `sp` and the memories unchanged, and the live frame is
still the same frame (same function, same parent, same depth), with its
continuation set for resumption. -/
theorem dispatch_host_times200 (s : state) (cont : Nat) (f : compiledFunction)
    (prev : callFrame)
    (hhost : s.e.hostFunctions = newEngine.hostFunctions)
    (hlive : s.e.callFrameStack = .frame cont f prev) (hf : f.codeSegment ≠ [])
    (hs : s.e.jitCallStatusCode = jitStatusCallHostFunction)
    (hidx : s.e.functionCallIndex = 1)
    (hsp1 : 1 ≤ s.e.sp) (hsp : s.e.sp ≤ s.e.stack.length) (hsp64 : s.e.sp < 2 ^ 64) :
    ∃ v s1, s.e.stack[s.e.sp - 1]? = some v ∧
      dispatch s = .done s1 ∧
      s1.e.stack = s.e.stack.set (s.e.sp - 1) ((v * 200) % 2 ^ 64) ∧
      s1.e.stack[s.e.sp - 1]? = some ((v * 200) % 2 ^ 64) ∧
      (∀ j, j ≠ s.e.sp - 1 → s1.e.stack[j]? = s.e.stack[j]?) ∧
      s1.e.stack.length = s.e.stack.length ∧
      s1.e.sp = s.e.sp ∧
      s1.mems = s.mems ∧
      s1.e.callFrameStack =
        .frame ((f.codeAddr + s.e.continuationAddressOffset) % 2 ^ 64) f prev ∧
      s1.e.callFrameStack.depth = s.e.callFrameStack.depth := by
  have hlt : s.e.sp - 1 < s.e.stack.length := by omega
  have hv : s.e.stack[s.e.sp - 1]? = some (s.e.stack[s.e.sp - 1]) :=
    List.getElem?_eq_getElem hlt
  have htab : s.e.hostFunctions[s.e.functionCallIndex]? = some (hostMul 200) := by
    rw [hhost, hidx]; rfl
  have hd : dispatch s = .done { s with e := { s.e with
      stack := s.e.stack.set (s.e.sp - 1) ((s.e.stack[s.e.sp - 1] * 200) % 2 ^ 64)
      callFrameStack :=
        .frame ((f.codeAddr + s.e.continuationAddressOffset) % 2 ^ 64) f prev } } := by
    rw [dispatch_eq_callHost s cont f prev hlive hs]
    unfold callHost
    simp only [htab, hostMul_ok 200 s.e.stack s.e.sp _ hsp1 hsp64 hv]
    rw [resume_ok _ f prev hf]
  refine ⟨s.e.stack[s.e.sp - 1], _, hv, hd, rfl, ?_, fun j hj => ?_, ?_, rfl, rfl, rfl, ?_⟩
  · simp only [List.getElem?_set, hlt, if_true]
  · simp only [List.getElem?_set, Ne.symm hj, if_false]
  · simp only [List.length_set]
  · rw [hlive]; rfl

/-- Witness of C9: on the stack `[5, 6, 7]` with `sp = 2` the slot at index 1
becomes `6 * 200`. -/
theorem dispatch_host_times200_witness :
    ∃ s1, dispatch (demoState 3 1 16 []) = .done s1 ∧
      s1.e.stack = [5, 1200, 7] ∧ s1.e.sp = 2 ∧
      s1.e.callFrameStack = .frame 4112 fnA .null := by
  obtain ⟨v, s1, hv, hd, hst, -, -, -, hsp, -, hfr, -⟩ :=
    dispatch_host_times200 (demoState 3 1 16 []) 4096 fnA .null rfl rfl (by decide) rfl rfl
      (by decide) (by decide) (by decide)
  have hv6 : v = 6 := by
    have h6 : (demoState 3 1 16 []).e.stack[(demoState 3 1 16 []).e.sp - 1]? = some 6 := rfl
    rw [h6] at hv
    injection hv with hv
    exact hv.symm
  subst hv6
  exact ⟨s1, hd, hst, hsp, hfr⟩

/-- C10: with a live frame, for every status outside
`{Returned = 0, CallFunction = 1, CallBuiltInFunction = 2, CallHostFunction = 3}`
the dispatch step takes the `panic("invalid status code!")` branch with the
state unchanged (frame chain, value stack, `sp`, memories), and the loop of
`exec` stops there: the trampoline invocation that produced the status is the
last one. For every status inside the set that branch is not taken. -/
theorem dispatch_invalid_status (s : state) (cont : Nat) (f : compiledFunction)
    (prev : callFrame) (hlive : s.e.callFrameStack = .frame cont f prev) :
    jitStatusReturned = 0 ∧ jitStatusCallFunction = 1 ∧
    jitStatusCallBuiltInFunction = 2 ∧ jitStatusCallHostFunction = 3 ∧
    (3 < s.e.jitCallStatusCode → dispatch s = .panic .invalidStatusCode s) ∧
    (s.e.jitCallStatusCode ≤ 3 → (dispatch s).cause ≠ some .invalidStatusCode) ∧
    (∀ (jit : trampoline) (fuel : Nat) (m : memoryInst),
      s.mems[f.memoryInst]? = some m → m.buf ≠ [] →
      3 < (jit cont s.e m.buf).jitCallStatusCode →
      execLoop jit (fuel + 1) s =
        { result := some (.panic .invalidStatusCode (applyJit s f m.buf (jit cont s.e m.buf))),
          calls := [cont] }) := by
  have hinv : ∀ (t : state), t.e.callFrameStack = .frame cont f prev →
      3 < t.e.jitCallStatusCode → dispatch t = .panic .invalidStatusCode t := by
    intro t ht h3
    have h0 : ¬ (t.e.jitCallStatusCode = jitStatusReturned) := by
      unfold jitStatusReturned; omega
    have h1 : ¬ (t.e.jitCallStatusCode = jitStatusCallFunction) := by
      unfold jitStatusCallFunction; omega
    have h2 : ¬ (t.e.jitCallStatusCode = jitStatusCallBuiltInFunction) := by
      unfold jitStatusCallBuiltInFunction; omega
    have h4 : ¬ (t.e.jitCallStatusCode = jitStatusCallHostFunction) := by
      unfold jitStatusCallHostFunction; omega
    rw [dispatch_live t cont f prev ht, if_neg h0, if_neg h1, if_neg h2, if_neg h4]
  refine ⟨rfl, rfl, rfl, rfl, hinv s hlive, fun hle => ?_, fun jit fuel m hm hm0 h3 => ?_⟩
  · rw [dispatch_live s cont f prev hlive]
    split
    · simp [outcome.cause]
    · split
      · exact callFunction_cause s f prev
      · split
        · exact callBuiltIn_cause s f prev
        · split
          · exact callHost_cause s f prev
          · rename_i h0 h1 h2 h4
            exfalso
            unfold jitStatusReturned at h0
            unfold jitStatusCallFunction at h1
            unfold jitStatusCallBuiltInFunction at h2
            unfold jitStatusCallHostFunction at h4
            omega
  · exact execLoop_panic jit fuel s _ cont f prev m _ hlive hm hm0 (hinv _ hlive h3)

/-- Witness of C10: status 7 on the root frame of `fnA`. -/
theorem dispatch_invalid_status_witness :
    dispatch (demoState 7 0 0 []) = .panic .invalidStatusCode (demoState 7 0 0 []) ∧
    (dispatch (demoState 2 5 0 [])).cause ≠ some .invalidStatusCode ∧
    (execLoop (constJit 7) 5 (demoState 0 0 0 [])).calls = [4096] := by
  have h := dispatch_invalid_status (demoState 7 0 0 []) 4096 fnA .null rfl
  have h2 := dispatch_invalid_status (demoState 2 5 0 []) 4096 fnA .null rfl
  have h3 := dispatch_invalid_status (demoState 0 0 0 []) 4096 fnA .null rfl
  refine ⟨h.2.2.2.2.1 (by decide), h2.2.2.2.2.2.1 (by decide), ?_⟩
  rw [h3.2.2.2.2.2.2 (constJit 7) 4 { buf := [0, 0] } rfl (by decide) (by decide)]

/-! ## Built-in services (C11, C12) -/

/-- C11, as stated, fails, in two ways. (1) With the page count `v = 2^54` on
top of the value stack (`sp = 1 <= len(stack)`), the `growMemory` step
completes, decreases `sp` to 0, and leaves the memory of the live function as
it was (`[7]`): the byte count `1024 * v` wraps to 0, so no zero byte is
appended, not `v * 1024` of them. (2) With the table `[fnA, fnC]`, where the
other function `fnC` points to the same memory instance as the live function
`fnA`, the step (6 pages) changes the memory of `fnC` as well. -/
theorem dispatch_growMemory_wraps :
    (1 ≤ wrapGrowState.e.sp ∧ wrapGrowState.e.sp ≤ wrapGrowState.e.stack.length ∧
     wrapGrowState.e.jitCallStatusCode = jitStatusCallBuiltInFunction ∧
     wrapGrowState.e.functionCallIndex = builtinFunctionIndexGrowMemory ∧
     wrapGrowState.e.stack[wrapGrowState.e.sp - 1]? = some 18014398509481984 ∧
     wrapGrowState.mems[fnA.memoryInst]? = some { buf := [7] } ∧
     ∃ s1, dispatch wrapGrowState = .done s1 ∧ s1.e.sp = 0 ∧
       s1.mems[fnA.memoryInst]? = some { buf := [7] } ∧
       ([7] : List Nat) ≠ [7] ++ List.replicate (18014398509481984 * 1024) 0) ∧
    (fnC ≠ fnA ∧
     (demoState 2 0 16 [some fnA, some fnC]).e.callFrameStack = .frame 4096 fnA .null ∧
     1 ≤ (demoState 2 0 16 [some fnA, some fnC]).e.sp ∧
     (demoState 2 0 16 [some fnA, some fnC]).e.sp ≤
       (demoState 2 0 16 [some fnA, some fnC]).e.stack.length ∧
     (demoState 2 0 16 [some fnA, some fnC]).mems[fnC.memoryInst]? = some { buf := [0, 0] } ∧
     ∃ s1, dispatch (demoState 2 0 16 [some fnA, some fnC]) = .done s1 ∧
       s1.mems[fnC.memoryInst]? = some { buf := [0, 0] ++ List.replicate (6 * 1024) 0 } ∧
       s1.mems[fnC.memoryInst]? ≠
         (demoState 2 0 16 [some fnA, some fnC]).mems[fnC.memoryInst]?) := by
  have hg : memoryGrow { buf := [7] } 18014398509481984 = .ok { buf := [7] } := by
    rw [memoryGrow_ok_iff, wrapped_pages_literal, maxAlloc_eq]
    refine ⟨by simp, ?_⟩
    simp only [List.replicate_zero, List.append_nil]
  have hd := dispatch_growMemory_ok wrapGrowState 4096 fnA .null 18014398509481984
    { buf := [7] } { buf := [7] } rfl (by decide) rfl rfl (by decide) (by decide) rfl rfl hg
  have hd2 := dispatch_growMemory_ok (demoState 2 0 16 [some fnA, some fnC]) 4096 fnA .null 6
    { buf := [0, 0] } _ rfl (by decide) rfl rfl (by decide) (by decide) rfl rfl
    (memoryGrow_in_range { buf := [0, 0] } 6 small_grow_in_range_pages)
  have hk : fnC.memoryInst < (demoState 2 0 16 [some fnA, some fnC]).mems.length := by decide
  have hnew : ((demoState 2 0 16 [some fnA, some fnC]).mems.set fnA.memoryInst
      { buf := [0, 0] ++ List.replicate (6 * 1024) 0 })[fnC.memoryInst]? =
      some { buf := [0, 0] ++ List.replicate (6 * 1024) 0 } :=
    List.getElem?_set_self hk
  refine ⟨⟨by decide, by decide, rfl, rfl, rfl, rfl, _, hd, rfl, rfl,
    ne_append_replicate [7] (18014398509481984 * 1024) (by norm_num)⟩,
    by decide, rfl, by decide, by decide, rfl, _, hd2, hnew, ?_⟩
  intro h
  rw [hnew] at h
  have h0 : (demoState 2 0 16 [some fnA, some fnC]).mems[fnC.memoryInst]? =
      some { buf := [0, 0] } := rfl
  rw [h0] at h
  injection h with h
  injection h with h
  exact ne_append_replicate [0, 0] (6 * 1024) (by norm_num) h.symm

/-- C11 (amended): for every state with `1 <= sp <= len(stack)` (`sp` a
`uint64`), a live frame whose function `f` has a non-empty code segment and
an existing memory instance `m`: on status `CallBuiltInFunction` with index 0
the step reads `v = stack[sp-1]`; whenever it completes, `sp` has decreased
by exactly one, the value-stack contents are unchanged, the memory instance
of `f` is `m` followed by `(1024 * v) mod 2^64` zero bytes (`v` pages when
`v < 2^54`), and the memory of every function whose memory instance is not
that of `f` (every other memory instance) is unchanged, while a function
sharing the instance of `f` sees the same growth. (The step completes
whenever the new length is within `maxAlloc`.) -/
theorem dispatch_growMemory (s : state) (cont : Nat) (f : compiledFunction)
    (prev : callFrame) (m : memoryInst)
    (hlive : s.e.callFrameStack = .frame cont f prev) (hf : f.codeSegment ≠ [])
    (hs : s.e.jitCallStatusCode = jitStatusCallBuiltInFunction)
    (hidx : s.e.functionCallIndex = builtinFunctionIndexGrowMemory)
    (hsp1 : 1 ≤ s.e.sp) (hsp : s.e.sp ≤ s.e.stack.length) (hsp64 : s.e.sp < 2 ^ 64)
    (hm : s.mems[f.memoryInst]? = some m) :
    ∃ v, s.e.stack[s.e.sp - 1]? = some v ∧
      (∀ s1, dispatch s = .done s1 →
        s1.e.sp = s.e.sp - 1 ∧ s1.e.stack = s.e.stack ∧
        s1.mems[f.memoryInst]? =
          some { buf := m.buf ++ List.replicate ((1024 * v) % 2 ^ 64) 0 } ∧
        (v < 2 ^ 54 →
          s1.mems[f.memoryInst]? = some { buf := m.buf ++ List.replicate (v * 1024) 0 }) ∧
        (∀ g : compiledFunction, g.memoryInst ≠ f.memoryInst →
          s1.mems[g.memoryInst]? = s.mems[g.memoryInst]?) ∧
        (∀ g : compiledFunction, g.memoryInst = f.memoryInst →
          s1.mems[g.memoryInst]? =
            some { buf := m.buf ++ List.replicate ((1024 * v) % 2 ^ 64) 0 }) ∧
        (∀ j, j ≠ f.memoryInst → s1.mems[j]? = s.mems[j]?) ∧
        s1.mems.length = s.mems.length ∧
        s1.e.callFrameStack =
          .frame ((f.codeAddr + s.e.continuationAddressOffset) % 2 ^ 64) f prev) ∧
      (m.buf.length + 1024 * v ≤ maxAlloc →
        ∃ s1, dispatch s = .done s1 ∧
          s1.mems[f.memoryInst]? = some { buf := m.buf ++ List.replicate (v * 1024) 0 }) := by
  have hlt : s.e.sp - 1 < s.e.stack.length := by omega
  have hv : s.e.stack[s.e.sp - 1]? = some (s.e.stack[s.e.sp - 1]) :=
    List.getElem?_eq_getElem hlt
  have hk : f.memoryInst < s.mems.length := getElem?_lt_length s.mems f.memoryInst m hm
  refine ⟨s.e.stack[s.e.sp - 1], hv, fun s1 hd => ?_, fun hr => ?_⟩
  · cases hg : memoryGrow m (s.e.stack[s.e.sp - 1]) with
    | error msg =>
      rw [dispatch_growMemory_error s cont f prev _ m msg hlive hs hidx hsp1 hsp64 hv hm hg]
        at hd
      cases hd
    | ok m1 =>
      rw [dispatch_growMemory_ok s cont f prev _ m m1 hlive hf hs hidx hsp1 hsp64 hv hm hg]
        at hd
      injection hd with hd
      rw [memoryGrow_ok_iff] at hg
      rewrite [← hd, hg.2]
      refine ⟨rfl, rfl, List.getElem?_set_self hk, fun hv54 => ?_, fun g hg2 => ?_,
        fun g hg2 => ?_, fun j hj => ?_, ?_, rfl⟩
      · rw [← no_wrap_pages _ hv54]
        exact List.getElem?_set_self hk
      · exact List.getElem?_set_ne (Ne.symm hg2)
      · rw [hg2]
        exact List.getElem?_set_self hk
      · exact List.getElem?_set_ne (Ne.symm hj)
      · exact List.length_set _ _ _
  · have hg := memoryGrow_in_range m (s.e.stack[s.e.sp - 1]) hr
    refine ⟨_, dispatch_growMemory_ok s cont f prev _ m _ hlive hf hs hidx hsp1 hsp64 hv hm hg,
      ?_⟩
    exact List.getElem?_set_self hk

/-- Witness of C11 (amended): on the stack `[5, 6, 7]` with `sp = 2` the
memory `[0, 0]` of `fnA` grows by 6 pages. -/
theorem dispatch_growMemory_witness :
    ∃ s1, dispatch (demoState 2 0 16 []) = .done s1 ∧
      s1.mems[fnA.memoryInst]? = some { buf := [0, 0] ++ List.replicate (6 * 1024) 0 } ∧
      s1.e.sp = 1 := by
  obtain ⟨v, hv, hall, h⟩ := dispatch_growMemory (demoState 2 0 16 []) 4096 fnA .null
    { buf := [0, 0] } rfl (by decide) rfl rfl (by decide) (by decide) (by decide) rfl
  have hv6 : v = 6 := by
    have h6 : (demoState 2 0 16 []).e.stack[(demoState 2 0 16 []).e.sp - 1]? = some 6 := rfl
    rw [h6] at hv
    injection hv with hv
    exact hv.symm
  subst hv6
  obtain ⟨s1, hd, hmem⟩ := h small_grow_in_range_pages
  exact ⟨s1, hd, hmem, (hall s1 hd).1⟩

/-- C12: for every state with a live frame (whose function has code): on
status `CallBuiltInFunction` with index 1 (`growStack`) the step completes
whenever the doubled length fits `int`; and whenever it completes, the
value-stack length is exactly doubled, every existing slot keeps its value,
`sp` is unchanged (nothing is consumed) and every memory buffer is
unchanged. -/
theorem dispatch_growStack (s : state) (cont : Nat) (f : compiledFunction)
    (prev : callFrame)
    (hlive : s.e.callFrameStack = .frame cont f prev) (hf : f.codeSegment ≠ [])
    (hs : s.e.jitCallStatusCode = jitStatusCallBuiltInFunction)
    (hidx : s.e.functionCallIndex = builtinFunctionIndexGrowStack) :
    (s.e.stack.length * 2 ≤ maxInt → ∃ s1, dispatch s = .done s1) ∧
    (∀ s1, dispatch s = .done s1 →
      s1.e.stack.length = 2 * s.e.stack.length ∧
      (∀ i, i < s.e.stack.length → s1.e.stack[i]? = s.e.stack[i]?) ∧
      s1.e.sp = s.e.sp ∧
      s1.mems = s.mems) := by
  refine ⟨fun hlen => ⟨_, dispatch_growStack_ok s cont f prev hlive hf hs hidx hlen⟩,
    fun s1 hd => ?_⟩
  by_cases hlen : s.e.stack.length * 2 ≤ maxInt
  · rw [dispatch_growStack_ok s cont f prev hlive hf hs hidx hlen] at hd
    injection hd with hd
    subst hd
    refine ⟨?_, fun i hi => ?_, rfl, rfl⟩
    · show (s.e.stack ++ List.replicate s.e.stack.length 0).length = 2 * s.e.stack.length
      rw [List.length_append, List.length_replicate]
      omega
    · exact List.getElem?_append_left hi
  · have hp := dispatch_growStack_error s cont f prev hlive hs hidx hlen
    rw [hd] at hp
    cases hp

/-- Witness of C12: the stack `[5, 6, 7]` grows to six slots, `sp` stays 2. -/
theorem dispatch_growStack_witness :
    ∃ s1, dispatch (demoState 2 1 16 []) = .done s1 ∧
      s1.e.stack.length = 2 * (demoState 2 1 16 []).e.stack.length ∧
      s1.e.stack[2]? = some 7 ∧ s1.e.sp = 2 ∧
      s1.mems = (demoState 2 1 16 []).mems := by
  have h := dispatch_growStack (demoState 2 1 16 []) 4096 fnA .null rfl (by decide) rfl rfl
  obtain ⟨s1, hd⟩ := h.1 smallEngine_in_range
  obtain ⟨h1, h2, h3, h4⟩ := h.2 s1 hd
  exact ⟨s1, hd, h1, h2 2 (by decide), h3, h4⟩

/-! ## Resumption after a service (C13, C14, C19, C20) -/

/-- C13: with a live frame `frame cont f prev`, on status
`CallBuiltInFunction` or `CallHostFunction`: whenever the dispatch step
completes, the live frame is the same frame (same function, same parent,
same depth) and its continuation is the entry address of its own function
plus the saved continuation offset (a `uintptr` sum), whatever `cont` was;
and, the function of the live frame having code, the step completes whenever
the service does (`growMemory`, `growStack`, no service for another built-in
index, or the selected host callback). -/
theorem dispatch_service_resumes (s : state) (cont : Nat) (f : compiledFunction)
    (prev : callFrame)
    (hlive : s.e.callFrameStack = .frame cont f prev)
    (hs : s.e.jitCallStatusCode = jitStatusCallBuiltInFunction ∨
      s.e.jitCallStatusCode = jitStatusCallHostFunction) :
    (∀ s1, dispatch s = .done s1 →
      initialAddress f = .ok f.codeAddr ∧
      s1.e.callFrameStack =
        .frame ((f.codeAddr + s.e.continuationAddressOffset) % 2 ^ 64) f prev ∧
      s1.e.callFrameStack.depth = s.e.callFrameStack.depth) ∧
    (f.codeSegment ≠ [] →
      (s.e.jitCallStatusCode = jitStatusCallBuiltInFunction →
        s.e.functionCallIndex = builtinFunctionIndexGrowMemory →
        ∀ s2, callGrowMemory s f = .done s2 → ∃ s1, dispatch s = .done s1) ∧
      (s.e.jitCallStatusCode = jitStatusCallBuiltInFunction →
        s.e.functionCallIndex = builtinFunctionIndexGrowStack →
        ∀ e1, stackGrow s.e = .ok e1 → ∃ s1, dispatch s = .done s1) ∧
      (s.e.jitCallStatusCode = jitStatusCallBuiltInFunction →
        s.e.functionCallIndex ≠ builtinFunctionIndexGrowMemory →
        s.e.functionCallIndex ≠ builtinFunctionIndexGrowStack →
        ∃ s1, dispatch s = .done s1) ∧
      (s.e.jitCallStatusCode = jitStatusCallHostFunction →
        ∀ hfn r, s.e.hostFunctions[s.e.functionCallIndex]? = some hfn →
          hfn s.e.stack s.e.sp = .ok r → ∃ s1, dispatch s = .done s1)) := by
  refine ⟨fun s1 hd => ?_, fun hf => ⟨fun h2 hidx s2 hg => ?_, fun h2 hidx e1 hg => ?_,
    fun h2 h0 h1 => ?_, fun h3 hfn r ht hr => ?_⟩⟩
  · have key : f.codeSegment ≠ [] ∧ s1.e.callFrameStack =
        .frame ((f.codeAddr + s.e.continuationAddressOffset) % 2 ^ 64) f prev := by
      cases hs with
      | inl h2 =>
        rw [dispatch_eq_callBuiltIn s cont f prev hlive h2] at hd
        obtain ⟨hf, hfr, -, -⟩ := callBuiltIn_done_effect s s1 f prev hd
        exact ⟨hf, hfr⟩
      | inr h3 =>
        rw [dispatch_eq_callHost s cont f prev hlive h3] at hd
        obtain ⟨hfn, stack1, sp1, -, -, hf, hs1⟩ := callHost_done s s1 f prev hd
        subst hs1
        exact ⟨hf, rfl⟩
    refine ⟨initialAddress_ok f key.1, key.2, ?_⟩
    rw [key.2, hlive]
    rfl
  · rw [dispatch_eq_callBuiltIn s cont f prev hlive h2, callBuiltIn_growMemory s f prev hidx, hg]
    exact ⟨_, resume_ok s2 f prev hf⟩
  · rw [dispatch_eq_callBuiltIn s cont f prev hlive h2, callBuiltIn_growStack s f prev hidx, hg]
    exact ⟨_, resume_ok _ f prev hf⟩
  · exact ⟨_, dispatch_builtin_other s cont f prev hlive hf h2 h0 h1⟩
  · obtain ⟨stack1, sp1⟩ := r
    rw [dispatch_eq_callHost s cont f prev hlive h3]
    exact ⟨_, callHost_ok s f prev hfn stack1 sp1 hf ht hr⟩

/-- Witness of C13: after `growStack` the root frame of `fnA` (continuation
4096) is still live, with continuation `4096 + 16`. -/
theorem dispatch_service_resumes_witness :
    ∃ s1, dispatch (demoState 2 1 16 []) = .done s1 ∧
      s1.e.callFrameStack = .frame 4112 fnA .null := by
  have h := dispatch_service_resumes (demoState 2 1 16 []) 4096 fnA .null rfl (Or.inl rfl)
  obtain ⟨s1, hd⟩ := (h.2 (by decide)).2.1 rfl rfl _ rfl
  exact ⟨s1, hd, (h.1 s1 hd).2.1⟩

/-- C14, as stated, fails: with the host table of `newEngine` and `sp = 0`,
status `CallHostFunction` with index 0 (less than the table length 2) aborts
all the same, because the callback itself panics when it indexes
`stack[sp-1]`. -/
theorem dispatch_host_in_range_aborts :
    (emptySpState 3 0).e.jitCallStatusCode = jitStatusCallHostFunction ∧
    (emptySpState 3 0).e.functionCallIndex < (emptySpState 3 0).e.hostFunctions.length ∧
    (dispatch (emptySpState 3 0)).isPanic = true ∧
    (dispatch (emptySpState 3 0)).cause = some (.inHost "index out of range") := by
  have hd : dispatch (emptySpState 3 0) =
      .panic (.inHost "index out of range") (emptySpState 3 0) := by
    rw [dispatch_eq_callHost (emptySpState 3 0) 4096 fnA .null rfl rfl]
    exact callHost_error (emptySpState 3 0) fnA .null (hostMul 100) "index out of range" rfl
      (hostMul_empty 100 _ _ rfl (by rw [maxInt_eq]; decide))
  refine ⟨rfl, by decide, ?_, ?_⟩
  · rw [hd]; rfl
  · rw [hd]; rfl

/-- C14 (amended): with a live frame, on status `CallHostFunction`: the step
aborts with the index-out-of-range error of the host table, the state
unchanged (no callback has run; value stack, `sp` and the continuation of the
live frame are as before), if and only if the call-target index is not less
than the length of the host table. With the index within the table the step
still aborts exactly when the selected callback panics or the function of the
live frame has no code. -/
theorem dispatch_host_index (s : state) (cont : Nat) (f : compiledFunction)
    (prev : callFrame)
    (hlive : s.e.callFrameStack = .frame cont f prev)
    (hs : s.e.jitCallStatusCode = jitStatusCallHostFunction) :
    (s.e.hostFunctions.length ≤ s.e.functionCallIndex ↔
      dispatch s = .panic (.runtime "index out of range") s) ∧
    (∀ hfn, s.e.hostFunctions[s.e.functionCallIndex]? = some hfn →
      ((dispatch s).isPanic = true ↔
        ((∃ msg, hfn s.e.stack s.e.sp = .error msg) ∨ f.codeSegment = []))) := by
  rw [dispatch_eq_callHost s cont f prev hlive hs]
  have hcases : ∀ hfn, s.e.hostFunctions[s.e.functionCallIndex]? = some hfn →
      (callHost s f prev ≠ .panic (.runtime "index out of range") s) ∧
      ((callHost s f prev).isPanic = true ↔
        ((∃ msg, hfn s.e.stack s.e.sp = .error msg) ∨ f.codeSegment = [])) := by
    intro hfn ht
    cases hr : hfn s.e.stack s.e.sp with
    | error msg =>
      rw [callHost_error s f prev hfn msg ht hr]
      refine ⟨fun h => ?_, fun _ => Or.inl ⟨msg, rfl⟩, fun _ => rfl⟩
      injection h with h1 h2
      cases h1
    | ok r =>
      obtain ⟨stack1, sp1⟩ := r
      by_cases hf : f.codeSegment = []
      · rw [callHost_no_code s f prev hfn stack1 sp1 hf ht hr]
        refine ⟨fun h => ?_, fun _ => Or.inr hf, fun _ => rfl⟩
        injection h with h1 h2
        injection h1 with h1
        exact absurd h1 (by decide)
      · rw [callHost_ok s f prev hfn stack1 sp1 hf ht hr]
        refine ⟨fun h => ?_, fun h => ?_, fun h => ?_⟩
        · cases h
        · cases h
        · cases h with
          | inl h => obtain ⟨msg, hm⟩ := h; cases hm
          | inr h => exact absurd h hf
  refine ⟨⟨fun hle => ?_, fun hd => ?_⟩, fun hfn ht => (hcases hfn ht).2⟩
  · exact callHost_no_entry s f prev (List.getElem?_eq_none hle)
  · by_contra hlt
    have hlt2 : s.e.functionCallIndex < s.e.hostFunctions.length := Nat.lt_of_not_le hlt
    exact (hcases _ (List.getElem?_eq_getElem hlt2)).1 hd

/-- Witness of C14 (amended): index 2 on the two-entry table of `newEngine`
aborts with the state unchanged; index 1 on the stack `[5, 6, 7]` with
`sp = 2` does not abort. -/
theorem dispatch_host_index_witness :
    dispatch (demoState 3 2 16 []) =
      .panic (.runtime "index out of range") (demoState 3 2 16 []) ∧
    (dispatch (demoState 3 1 16 [])).isPanic ≠ true := by
  refine ⟨(dispatch_host_index (demoState 3 2 16 []) 4096 fnA .null rfl rfl).1.1 (by decide),
    fun hp => ?_⟩
  have h := ((dispatch_host_index (demoState 3 1 16 []) 4096 fnA .null rfl rfl).2
    (hostMul 200) rfl).1 hp
  cases h with
  | inl h =>
    obtain ⟨msg, hm⟩ := h
    rw [hostMul_ok 200 _ _ 6 (by decide) (by decide) rfl] at hm
    cases hm
  | inr h => exact absurd h (by decide)

/-- C19: with a live frame (whose function has code), on status
`CallBuiltInFunction` with a call-target index that is neither 0 nor 1 the
dispatch step does not abort: value stack, `sp` and every memory buffer are
unchanged, and the only effect is that the continuation of the live frame is
set to its entry address plus the saved offset; the frame stays live. -/
theorem dispatch_builtin_unknown (s : state) (cont : Nat) (f : compiledFunction)
    (prev : callFrame)
    (hlive : s.e.callFrameStack = .frame cont f prev) (hf : f.codeSegment ≠ [])
    (hs : s.e.jitCallStatusCode = jitStatusCallBuiltInFunction)
    (h0 : s.e.functionCallIndex ≠ builtinFunctionIndexGrowMemory)
    (h1 : s.e.functionCallIndex ≠ builtinFunctionIndexGrowStack) :
    builtinFunctionIndexGrowMemory = 0 ∧ builtinFunctionIndexGrowStack = 1 ∧
    ∃ s1, dispatch s = .done s1 ∧
      s1 = { s with e := { s.e with
        callFrameStack :=
          .frame ((f.codeAddr + s.e.continuationAddressOffset) % 2 ^ 64) f prev } } ∧
      s1.e.stack = s.e.stack ∧ s1.e.sp = s.e.sp ∧ s1.mems = s.mems ∧
      s1.e.callFrameStack =
        .frame ((f.codeAddr + s.e.continuationAddressOffset) % 2 ^ 64) f prev ∧
      s1.e.callFrameStack.depth = s.e.callFrameStack.depth :=
  ⟨rfl, rfl, _, dispatch_builtin_other s cont f prev hlive hf hs h0 h1, rfl, rfl, rfl, rfl, rfl,
    by rw [hlive]; rfl⟩

/-- Witness of C19: built-in index 5 on the root frame of `fnA`. -/
theorem dispatch_builtin_unknown_witness :
    ∃ s1, dispatch (demoState 2 5 16 []) = .done s1 ∧
      s1.e.stack = [5, 6, 7] ∧ s1.e.sp = 2 ∧
      s1.mems = (demoState 2 5 16 []).mems ∧
      s1.e.callFrameStack = .frame 4112 fnA .null := by
  obtain ⟨-, -, s1, hd, -, h1, h2, h3, h4, -⟩ :=
    dispatch_builtin_unknown (demoState 2 5 16 []) 4096 fnA .null rfl (by decide) rfl
      (by decide) (by decide)
  exact ⟨s1, hd, h1, h2, h3, h4⟩

/-- C20: for every state with `sp = 0` (the stack length being a Go `int`)
and a live frame, the index `sp - 1` wraps to `2^64 - 1` and is out of range
of the stack: a `growMemory` built-in call aborts, and so does a call to
either host function of `newEngine`, before any slot is read or written; the
state at the abort is the state the trampoline left (`sp`, value stack, every
memory buffer and the continuation of the live frame unchanged). -/
theorem dispatch_empty_stack (s : state) (cont : Nat) (f : compiledFunction)
    (prev : callFrame)
    (hlive : s.e.callFrameStack = .frame cont f prev)
    (hsp : s.e.sp = 0) (hlen : s.e.stack.length ≤ maxInt) :
    (s.e.sp + 2 ^ 64 - 1) % 2 ^ 64 = 2 ^ 64 - 1 ∧
    s.e.stack[(s.e.sp + 2 ^ 64 - 1) % 2 ^ 64]? = none ∧
    (s.e.jitCallStatusCode = jitStatusCallBuiltInFunction →
      s.e.functionCallIndex = builtinFunctionIndexGrowMemory →
      dispatch s = .panic (.runtime "index out of range") s) ∧
    (s.e.jitCallStatusCode = jitStatusCallHostFunction →
      s.e.hostFunctions = newEngine.hostFunctions →
      s.e.functionCallIndex < 2 →
      dispatch s = .panic (.inHost "index out of range") s) := by
  obtain ⟨hi, hnone⟩ := wrapped_index_out_of_range s.e.stack s.e.sp hsp hlen
  refine ⟨hi, hnone, fun hs hidx => ?_, fun hs hhost hidx => ?_⟩
  · rw [dispatch_eq_callBuiltIn s cont f prev hlive hs, callBuiltIn_growMemory s f prev hidx,
      callGrowMemory_empty s f hsp hlen]
  · rw [dispatch_eq_callHost s cont f prev hlive hs]
    have hl : newEngine.hostFunctions = [hostMul 100, hostMul 200] := rfl
    have h01 : s.e.functionCallIndex = 0 ∨ s.e.functionCallIndex = 1 := by omega
    cases h01 with
    | inl h =>
      exact callHost_error s f prev (hostMul 100) "index out of range"
        (by rw [hhost, hl, h]; rfl) (hostMul_empty 100 _ _ hsp hlen)
    | inr h =>
      exact callHost_error s f prev (hostMul 200) "index out of range"
        (by rw [hhost, hl, h]; rfl) (hostMul_empty 200 _ _ hsp hlen)

theorem emptySpState_length (status idx : Nat) :
    (emptySpState status idx).e.stack.length ≤ maxInt := by
  rw [maxInt_eq]
  show ([5, 6, 7] : List Nat).length ≤ 9223372036854775807
  simp

/-- Witness of C20: `growMemory` and the host function 1 on the stack
`[5, 6, 7]` with `sp = 0`. -/
theorem dispatch_empty_stack_witness :
    dispatch (emptySpState 2 0) = .panic (.runtime "index out of range") (emptySpState 2 0) ∧
    dispatch (emptySpState 3 1) = .panic (.inHost "index out of range") (emptySpState 3 1) :=
  ⟨(dispatch_empty_stack (emptySpState 2 0) 4096 fnA .null rfl rfl
      (emptySpState_length 2 0)).2.2.1 rfl rfl,
   (dispatch_empty_stack (emptySpState 3 1) 4096 fnA .null rfl rfl
      (emptySpState_length 3 1)).2.2.2 rfl rfl (by decide)⟩

/-! ## Invariants of the dispatch step (C16, C17) -/

/-- C16: with the host table of `newEngine`, for every state in which
`sp <= len(stack)` holds when the trampoline returns, and for every status
and call-target index: if the dispatch step completes, `sp <= len(stack)`
holds again afterwards. -/
theorem dispatch_preserves_sp_bound (s s1 : state)
    (hhost : s.e.hostFunctions = newEngine.hostFunctions)
    (hb : s.e.sp ≤ s.e.stack.length) (hd : dispatch s = .done s1) :
    0 ≤ s1.e.sp ∧ s1.e.sp ≤ s1.e.stack.length := by
  refine ⟨Nat.zero_le _, ?_⟩
  cases hlive : s.e.callFrameStack with
  | null =>
    unfold dispatch at hd
    rw [hlive] at hd
    cases hd
  | frame cont f prev =>
    rw [dispatch_live s cont f prev hlive] at hd
    split at hd
    · injection hd with hd
      subst hd
      exact hb
    · split at hd
      · obtain ⟨nf, -, -, -, hs1⟩ := callFunction_done s s1 f prev hd
        subst hs1
        exact hb
      · split at hd
        · exact (callBuiltIn_done_effect s s1 f prev hd).2.2.2 hb
        · split at hd
          · obtain ⟨hfn, stack1, sp1, ht, hr, -, hs1⟩ := callHost_done s s1 f prev hd
            subst hs1
            show sp1 ≤ stack1.length
            rw [hhost] at ht
            have hm : sp1 = s.e.sp ∧ stack1.length = s.e.stack.length := by
              cases newEngine_host_lookup _ hfn ht with
              | inl h => rw [h.2] at hr; exact hostMul_done 100 _ _ _ _ hr
              | inr h => rw [h.2] at hr; exact hostMul_done 200 _ _ _ _ hr
            rw [hm.1, hm.2]
            exact hb
          · cases hd

/-- Witness of C16: after the host call on `[5, 6, 7]` with `sp = 2`. -/
theorem dispatch_preserves_sp_bound_witness :
    ∃ s1, dispatch (demoState 3 1 16 []) = .done s1 ∧ s1.e.sp ≤ s1.e.stack.length := by
  have hc := callHost_ok (demoState 3 1 16 []) fnA .null (hostMul 200) _ _ (by decide) rfl
    (hostMul_ok 200 [5, 6, 7] 2 6 (by decide) (by decide) rfl)
  have hd := (dispatch_eq_callHost (demoState 3 1 16 []) 4096 fnA .null rfl rfl).trans hc
  exact ⟨_, hd, (dispatch_preserves_sp_bound (demoState 3 1 16 []) _ rfl (by decide) hd).2⟩

/-- C17: let `frame cont f prev` be the live frame when the trampoline
returns. Whatever the dispatch step does, the chain below the live frame
(`prev`, with every continuation, function and parent link in it) is found
unchanged in the result, and the function and the parent link of the live
frame are unchanged: a completed step leaves `prev` (return), or the live
frame with its continuation rewritten (built-in or host call), or a new frame
on top of the latter (call); a step that aborts leaves the live frame, with
its old or its rewritten continuation. -/
theorem dispatch_frame_effect (s : state) (cont : Nat) (f : compiledFunction)
    (prev : callFrame) (hlive : s.e.callFrameStack = .frame cont f prev) :
    (∀ s1, dispatch s = .done s1 →
      s1.e.callFrameStack = prev ∨
      s1.e.callFrameStack =
        .frame ((f.codeAddr + s.e.continuationAddressOffset) % 2 ^ 64) f prev ∨
      ∃ nf, s1.e.callFrameStack = .frame nf.codeAddr nf
        (.frame ((f.codeAddr + s.e.continuationAddressOffset) % 2 ^ 64) f prev)) ∧
    (∀ c st, dispatch s = .panic c st →
      st.e.callFrameStack = .frame cont f prev ∨
      st.e.callFrameStack =
        .frame ((f.codeAddr + s.e.continuationAddressOffset) % 2 ^ 64) f prev) := by
  rw [dispatch_live s cont f prev hlive]
  refine ⟨fun s1 hd => ?_, fun c st hd => ?_⟩
  · split at hd
    · injection hd with hd
      subst hd
      exact Or.inl rfl
    · split at hd
      · obtain ⟨nf, -, -, -, hs1⟩ := callFunction_done s s1 f prev hd
        subst hs1
        exact Or.inr (Or.inr ⟨nf, rfl⟩)
      · split at hd
        · exact Or.inr (Or.inl (callBuiltIn_done_effect s s1 f prev hd).2.1)
        · split at hd
          · obtain ⟨hfn, stack1, sp1, -, -, -, hs1⟩ := callHost_done s s1 f prev hd
            subst hs1
            exact Or.inr (Or.inl rfl)
          · cases hd
  · split at hd
    · cases hd
    · split at hd
      · cases callFunction_panic s st f prev c hd with
        | inl h => left; rw [h, hlive]
        | inr h => right; exact h
      · split at hd
        · left; rw [callBuiltIn_panic s st f prev c hd, hlive]
        · split at hd
          · left; rw [callHost_panic s st f prev c hd, hlive]
          · injection hd with h1 h2
            left; rw [← h2, hlive]

/-- Witness of C17: a call from the root frame of `fnA` pushes the frame of
`fnB` on top of it, the root frame keeping its function and its (null)
parent. -/
theorem dispatch_frame_effect_witness :
    ∃ s1, dispatch (demoState 1 1 16 [some fnA, some fnB]) = .done s1 ∧
      s1.e.callFrameStack = .frame 8192 fnB (.frame 4112 fnA .null) ∧
      (s1.e.callFrameStack = .null ∨
       s1.e.callFrameStack = .frame ((fnA.codeAddr + 16) % 2 ^ 64) fnA .null ∨
       ∃ nf, s1.e.callFrameStack = .frame nf.codeAddr nf
         (.frame ((fnA.codeAddr + 16) % 2 ^ 64) fnA .null)) := by
  have hd := callFunction_ok (demoState 1 1 16 [some fnA, some fnB]) 4096 fnA fnB .null
    rfl rfl rfl (by decide) (by decide)
  exact ⟨_, hd, rfl, (dispatch_frame_effect (demoState 1 1 16 [some fnA, some fnB]) 4096 fnA
    .null rfl).1 _ hd⟩

/-! ## Whole runs of `exec` (C15, C18) -/

/-- C15: let the function table hold the two compiled functions `f0` and
`f1` (both with code and a non-empty memory buffer), let the code at the entry
of `f0` signal `CallFunction` towards index 1 with continuation offset `k`,
the code at the entry of `f1` signal `Returned`, and the code of `f0` at its
continuation signal `Returned`. Then `exec(f0)` terminates without a panic,
with a null frame stack, after exactly three trampoline invocations, given
the entry address of `f0`, the entry address of `f1` and the continuation of
`f0`, in this order. -/
theorem exec_call_return (jit : trampoline) (s : state) (f0 f1 : compiledFunction)
    (m0 m1 : memoryInst) (k : Nat)
    (htab : s.e.compiledFunctions = [some f0, some f1])
    (hc0 : f0.codeSegment ≠ []) (hc1 : f1.codeSegment ≠ [])
    (hm0 : s.mems[f0.memoryInst]? = some m0) (hm00 : m0.buf ≠ [])
    (hm1 : s.mems[f1.memoryInst]? = some m1) (hm10 : m1.buf ≠ [])
    (hcall : ∀ e buf,
      (jit f0.codeAddr e buf).jitCallStatusCode = jitStatusCallFunction ∧
      (jit f0.codeAddr e buf).functionCallIndex = 1 ∧
      (jit f0.codeAddr e buf).continuationAddressOffset = k)
    (hret1 : ∀ e buf, (jit f1.codeAddr e buf).jitCallStatusCode = jitStatusReturned)
    (hret0 : ∀ e buf,
      (jit ((f0.codeAddr + k) % 2 ^ 64) e buf).jitCallStatusCode = jitStatusReturned)
    (fuel : Nat) :
    ∃ sf, exec jit (fuel + 4) s f0 =
        { result := some (.done sf),
          calls := [f0.codeAddr, f1.codeAddr, (f0.codeAddr + k) % 2 ^ 64] } ∧
      sf.e.callFrameStack = .null := by
  unfold exec
  rw [initialAddress_ok f0 hc0]
  dsimp only
  -- first iteration: `f0` calls `f1`
  obtain ⟨s1, hl1, ht1, hr1, he1⟩ := execLoop_call jit (fuel + 3)
    { s with e := { s.e with callFrameStack := .frame f0.codeAddr f0 .null } }
    f0.codeAddr f0 f1 .null m0 k rfl hc0 hc1 hm0 hm00 (hcall _ _).1 (hcall _ _).2.2
    (by
      show s.e.compiledFunctions[(jit f0.codeAddr _ m0.buf).functionCallIndex]? = _
      rw [(hcall _ _).2.1, htab]
      rfl)
  -- second iteration: `f1` returns
  obtain ⟨m1a, hm1a, hm1a0⟩ := hr1 f1.memoryInst m1 hm1 hm10
  obtain ⟨m0a, hm0a, hm0a0⟩ := hr1 f0.memoryInst m0 hm0 hm00
  obtain ⟨s2, hl2, -, hr2, he2⟩ := execLoop_return jit (fuel + 2) s1 f1.codeAddr f1
    (.frame ((f0.codeAddr + k) % 2 ^ 64) f0 .null) m1a hl1 hm1a hm1a0 (hret1 _ _)
  -- third iteration: `f0` returns
  obtain ⟨m0b, hm0b, hm0b0⟩ := hr2 f0.memoryInst m0a hm0a hm0a0
  obtain ⟨s3, hl3, -, -, he3⟩ := execLoop_return jit (fuel + 1) s2
    ((f0.codeAddr + k) % 2 ^ 64) f0 .null m0b hl2 hm0b hm0b0 (hret0 _ _)
  refine ⟨s3, ?_, hl3⟩
  rw [he1, he2, he3, execLoop_null jit fuel s3 hl3]

/-- Witness of C15: `fnA` (entry 4096) calls `fnB` (entry 8192) with
continuation offset 16 and both return. -/
theorem exec_call_return_witness :
    ∃ sf, exec (demoJit 16) 4 (demoState 0 0 0 [some fnA, some fnB]) fnA =
        { result := some (.done sf), calls := [4096, 8192, 4112] } ∧
      sf.e.callFrameStack = .null :=
  exec_call_return (demoJit 16) (demoState 0 0 0 [some fnA, some fnB]) fnA fnB
    { buf := [0, 0] } { buf := [0] } 16 rfl (by decide) (by decide) rfl (by decide) rfl
    (by decide) (fun _ _ => ⟨rfl, rfl, rfl⟩) (fun _ _ => rfl) (fun _ _ => rfl) 0

/-- C18: let `exec(f)` start (one root frame) and let the first `k`
iterations of its loop complete, the trampoline returning the statuses `sts`.
Then the depth of the frame chain after these `k` steps is
`1 + (number of CallFunction in sts) - (number of Returned in sts)`, and the
same holds after every shorter prefix, where the depth is still positive; if
the depth after `k` steps is 0, `exec` returns there, after exactly `k`
trampoline invocations; if it is positive, `exec` does not return in that
state. A completed built-in or host call leaves the depth unchanged. -/
theorem exec_depth_count (jit : trampoline) (s sk : state) (f : compiledFunction)
    (a k : Nat) (sts : List Nat)
    (ha : initialAddress f = .ok a)
    (hrun : runSteps jit k
      { s with e := { s.e with callFrameStack := .frame a f .null } } = some (sts, sk)) :
    sts.length = k ∧
    sk.e.callFrameStack.depth + sts.count jitStatusReturned =
      1 + sts.count jitStatusCallFunction ∧
    (∀ j, j < k → ∃ sj,
      runSteps jit j { s with e := { s.e with callFrameStack := .frame a f .null } } =
        some (sts.take j, sj) ∧
      0 < sj.e.callFrameStack.depth ∧
      sj.e.callFrameStack.depth + (sts.take j).count jitStatusReturned =
        1 + (sts.take j).count jitStatusCallFunction) ∧
    (sk.e.callFrameStack.depth = 0 → ∀ fuel, ∃ cs : List Nat, cs.length = k ∧
      exec jit (k + (fuel + 1)) s f = { result := some (.done sk), calls := cs }) ∧
    (0 < sk.e.callFrameStack.depth → ∀ fuel,
      (exec jit (k + fuel) s f).result ≠ some (.done sk)) ∧
    (∀ t t1, dispatch t = .done t1 →
      (t.e.jitCallStatusCode = jitStatusCallBuiltInFunction ∨
        t.e.jitCallStatusCode = jitStatusCallHostFunction) →
      t1.e.callFrameStack.depth = t.e.callFrameStack.depth) := by
  have hexec : ∀ n, exec jit n s f =
      execLoop jit n { s with e := { s.e with callFrameStack := .frame a f .null } } := by
    intro n
    unfold exec
    rw [ha]
  obtain ⟨hlen, hdep⟩ := runSteps_depth jit k _ sk sts hrun
  obtain ⟨cs, hcs, hloop⟩ := runSteps_execLoop jit k _ sk sts hrun
  have hroot : (callFrame.frame a f .null).depth = 1 := rfl
  refine ⟨hlen, ?_, fun j hj => ?_, fun h0 fuel => ?_, fun hpos fuel hres => ?_,
    fun t t1 hd hst => ?_⟩
  · rw [hdep]
    rfl
  · obtain ⟨sj, hj1, hj2⟩ := runSteps_prefix jit k _ sk sts hrun j hj
    refine ⟨sj, hj1, hj2, ?_⟩
    rw [(runSteps_depth jit j _ sj _ hj1).2]
    rfl
  · have hnull : sk.e.callFrameStack = .null := by
      cases hfr : sk.e.callFrameStack with
      | null => rfl
      | frame c g p => rw [hfr] at h0; cases h0
    refine ⟨cs, hcs, ?_⟩
    rw [hexec, hloop (fuel + 1), execLoop_null jit fuel sk hnull, List.append_nil]
  · rw [hexec, hloop fuel] at hres
    have hnull := execLoop_done_null jit fuel sk sk hres
    rw [hnull] at hpos
    cases hpos
  · rcases dispatch_done_depth t t1 hd with ⟨h0, -⟩ | ⟨h0, -⟩ | ⟨-, h1⟩
    · rcases hst with h | h <;> rw [h0] at h <;> cases h
    · rcases hst with h | h <;> rw [h0] at h <;> cases h
    · exact h1

/-- Witness of C18: `fnA` asks for `growStack`, calls `fnB`, `fnB` returns,
`fnA` returns: the statuses are `[2, 1, 0, 0]`, the depth ends at
`1 + 1 - 2 = 0` and `exec` returns after four trampoline invocations. -/
theorem exec_depth_count_witness :
    ∃ sk, runSteps busyJit 4 (demoState 0 0 0 [some fnA, some fnB]) =
        some ([2, 1, 0, 0], sk) ∧
      sk.e.callFrameStack.depth + [2, 1, 0, 0].count jitStatusReturned =
        1 + [2, 1, 0, 0].count jitStatusCallFunction ∧
      ∃ cs : List Nat, cs.length = 4 ∧
        exec busyJit 5 (demoState 0 0 0 [some fnA, some fnB]) fnA =
          { result := some (.done sk), calls := cs } := by
  have hrun : ∃ sk, runSteps busyJit 4 (demoState 0 0 0 [some fnA, some fnB]) =
      some ([2, 1, 0, 0], sk) := ⟨_, rfl⟩
  obtain ⟨sk, hsk⟩ := hrun
  have h := exec_depth_count busyJit (demoState 0 0 0 [some fnA, some fnB]) sk fnA 4096 4
    [2, 1, 0, 0] rfl hsk
  have h0 : sk.e.callFrameStack.depth = 0 := by
    have h2 := h.2.1
    simp [jitStatusReturned, jitStatusCallFunction] at h2
    exact h2
  exact ⟨sk, hsk, h.2.1, h.2.2.2.1 h0 0⟩

end Exp
